import Mathlib

/-!
Shallow embedding of the `LotteryFactory` Solidity contract
(packages/hardhat, lottery-mini-pay): the room/round state machine,
commit-reveal verification, fee and payout arithmetic, and claim
bookkeeping.

Modelling conventions:
* addresses, `bytes32` values and timestamps are `Nat`;
* `keccak256(abi.encodePacked(number, key, roomId, owner, round))` is an
  explicit function parameter `keccak : Nat → Nat → Nat → Nat → Nat → Nat`
  threaded into the operations that hash;
* each external function returns `Except Err LotteryState`; an `error`
  result models an EVM revert, which rolls back every storage write of the
  call, so the error case carries no state;
* the boundary ERC-20 ledger is modelled by an `allowance` map (decremented
  when `transferFrom` pulls the entry fee) and a `transfersOut` log
  recording every outbound `transfer` the contract performs.
-/

namespace LotteryMiniPay

/-- Room lifecycle states, `enum RoomState` in the contract. -/
inductive RoomState where
  | OPEN
  | PENDING_REVEAL
  | REVEALED
  | CLOSED
deriving DecidableEq, Repr

/-- `struct Room`; defaults are the EVM zero values of each slot. -/
structure Room where
  id : Nat := 0
  name : String := ""
  description : String := ""
  entryFee : Nat := 0
  drawTime : Nat := 0
  prizePool : Nat := 0
  encryptedWinningNumber : Nat := 0
  winningNumber : Nat := 0
  revealed : Bool := false
  state : RoomState := RoomState.OPEN
  carryOverAmount : Nat := 0
  roundNumber : Nat := 0
  feesCollected : Bool := false
  revealTime : Nat := 0
deriving DecidableEq, Repr

/-- `struct Ticket`. -/
structure Ticket where
  id : Nat := 0
  roomId : Nat := 0
  player : Nat := 0
  number : Nat := 0
  roundNumber : Nat := 0
  win : Bool := false
deriving DecidableEq, Repr, Inhabited

/-- `struct PlayerStats`. -/
structure PlayerStats where
  totalTickets : Nat := 0
  totalWins : Nat := 0
  totalClaimed : Nat := 0
  roomTickets : Nat → Nat := fun _ => 0
  roomWins : Nat → Nat := fun _ => 0

/-- Pointwise update of a `Nat`-keyed mapping. -/
def upd {α : Type} (f : Nat → α) (k : Nat) (v : α) : Nat → α :=
  fun i => if i = k then v else f i

/-- Pointwise update of a doubly keyed mapping. -/
def upd2 {α : Type} (f : Nat → Nat → α) (k1 k2 : Nat) (v : α) : Nat → Nat → α :=
  upd f k1 (upd (f k1) k2 v)

/-- Pointwise update of a triply keyed mapping. -/
def upd3 {α : Type} (f : Nat → Nat → Nat → α) (k1 k2 k3 : Nat) (v : α) :
    Nat → Nat → Nat → α :=
  upd f k1 (upd2 (f k1) k2 k3 v)

/-- Contract storage of `LotteryFactory`, including the `Ownable` owner,
the `Pausable` flag, and the modelled boundary-token view. -/
structure LotteryState where
  rooms : Nat → Room
  playerTicketIds : Nat → Nat → List Nat
  roomTicketsByRound : Nat → Nat → List Ticket
  ticketClaimed : Nat → Nat → Nat → Bool
  roomCount : Nat
  activeRoomIds : List Nat
  collectedFees : Nat
  owner : Nat
  paused : Bool
  playerStats : Nat → PlayerStats
  allowance : Nat → Nat
  transfersOut : List (Nat × Nat)

/-- `PLATFORM_FEE = 10` (10%). -/
def PLATFORM_FEE : Nat := 10

/-- `GRACE_PERIOD = 1 days`. -/
def GRACE_PERIOD : Nat := 86400

/-- `DECIMAL_CONVERSION = 1e12`. -/
def DECIMAL_CONVERSION : Nat := 10 ^ 12

/-- The contract's custom errors, plus the OpenZeppelin `Ownable` and
`Pausable` reverts (`notOwner`, `enforcedPause`, `expectedPause`) and the
`require`-string revert of the `validRoom` modifier (`invalidRoom`). -/
inductive Err where
  | invalidRoom
  | invalidState
  | invalidAmount
  | invalidNumber
  | invalidOwner
  | invalidTicket
  | invalidAddress
  | transferFailed
  | alreadyRevealed
  | buyTicketAfterDrawTime
  | invalidVerification
  | insufficientAllowance
  | roomNotResettable
  | gracePeriodNotPassed
  | notOwner
  | enforcedPause
  | expectedPause
deriving DecidableEq, Repr

/-- `createRoom(name, description, entryFee, drawTime, encryptedWinningNumber)`:
`onlyOwner whenNotPaused`; rejects a zero entry fee (before and after the
18→6 decimal conversion), then initialises the room at index `roomCount`. -/
def createRoom (s : LotteryState) (caller : Nat) (name description : String)
    (entryFee drawTime encryptedWinningNumber : Nat) : Except Err LotteryState :=
  if caller ≠ s.owner then .error .notOwner
  else if s.paused then .error .enforcedPause
  else if entryFee = 0 then .error .invalidAmount
  else
    let adjustedEntryFee := entryFee / DECIMAL_CONVERSION
    if adjustedEntryFee = 0 then .error .invalidAmount
    else
      let roomId := s.roomCount
      let r0 := s.rooms roomId
      let r1 :=
        { r0 with
          id := roomId
          name := name
          description := description
          entryFee := adjustedEntryFee
          drawTime := drawTime
          prizePool := 0
          encryptedWinningNumber := encryptedWinningNumber
          revealed := false
          state := RoomState.OPEN
          carryOverAmount := 0
          roundNumber := 1
          feesCollected := false
          revealTime := 0 }
      .ok { s with
            rooms := upd s.rooms roomId r1
            activeRoomIds := s.activeRoomIds ++ [roomId]
            roomCount := s.roomCount + 1 }

/-- `resetRoom(roomId, drawTime, encryptedWinningNumber)`:
`onlyOwner whenNotPaused validRoom`; only from `CLOSED` or `REVEALED`;
starts the next round, leaving `prizePool` untouched. -/
def resetRoom (s : LotteryState) (caller roomId drawTime encryptedWinningNumber : Nat) :
    Except Err LotteryState :=
  if caller ≠ s.owner then .error .notOwner
  else if s.paused then .error .enforcedPause
  else if ¬ roomId < s.roomCount then .error .invalidRoom
  else
    let room := s.rooms roomId
    if room.state ≠ RoomState.CLOSED ∧ room.state ≠ RoomState.REVEALED then
      .error .roomNotResettable
    else
      let room1 :=
        { room with
          drawTime := drawTime
          encryptedWinningNumber := encryptedWinningNumber
          revealed := false
          state := RoomState.OPEN
          winningNumber := 0
          roundNumber := room.roundNumber + 1
          feesCollected := false
          revealTime := 0 }
      let active := if roomId ∈ s.activeRoomIds then s.activeRoomIds
                    else s.activeRoomIds ++ [roomId]
      .ok { s with rooms := upd s.rooms roomId room1, activeRoomIds := active }

/-- `buyTicket(roomId, number)`: `nonReentrant whenNotPaused validRoom`.
If the draw time has passed, the body writes `state := PENDING_REVEAL` and
then reverts `BuyTicketAfterDrawTime`; the revert rolls the write back, so
the error carries no state.  Otherwise it validates the number and the
allowance, pulls the entry fee, and appends the ticket to the current
round. -/
def buyTicket (s : LotteryState) (caller now roomId number : Nat) :
    Except Err LotteryState :=
  if s.paused then .error .enforcedPause
  else if ¬ roomId < s.roomCount then .error .invalidRoom
  else
    let room := s.rooms roomId
    if room.drawTime ≤ now then .error .buyTicketAfterDrawTime
    else if 99 < number then .error .invalidNumber
    else if s.allowance caller < room.entryFee then .error .insufficientAllowance
    else
      let ticketId := (s.roomTicketsByRound roomId room.roundNumber).length
      let newTicket : Ticket :=
        { id := ticketId
          roomId := roomId
          player := caller
          number := number
          roundNumber := room.roundNumber
          win := false }
      let st := s.playerStats caller
      .ok { s with
            allowance := upd s.allowance caller (s.allowance caller - room.entryFee)
            roomTicketsByRound := upd2 s.roomTicketsByRound roomId room.roundNumber
              (s.roomTicketsByRound roomId room.roundNumber ++ [newTicket])
            playerTicketIds := upd2 s.playerTicketIds roomId caller
              (s.playerTicketIds roomId caller ++ [ticketId])
            ticketClaimed := upd3 s.ticketClaimed roomId room.roundNumber ticketId false
            rooms := upd s.rooms roomId { room with prizePool := room.prizePool + room.entryFee }
            playerStats := upd s.playerStats caller
              { st with
                totalTickets := st.totalTickets + 1
                roomTickets := upd st.roomTickets roomId (st.roomTickets roomId + 1) } }

/-- `verifyWinningNumber(roomId, privateKey, winningNumber)` (internal):
recomputes `keccak256(abi.encodePacked(winningNumber, privateKey, roomId,
owner(), room.roundNumber))` and compares it with the stored commitment,
also requiring `winningNumber <= 99`. -/
def verifyWinningNumber (keccak : Nat → Nat → Nat → Nat → Nat → Nat)
    (s : LotteryState) (roomId privateKey winningNumber : Nat) : Bool :=
  let room := s.rooms roomId
  decide (keccak winningNumber privateKey roomId s.owner room.roundNumber
      = room.encryptedWinningNumber) && decide (winningNumber ≤ 99)

/-- `revealWinningNumber(roomId, privateKey, winningNumber)`:
`onlyOwner whenNotPaused validRoom`; guarded by `revealed` before the
verifier runs; on success stores the number, flips `revealed`, moves to
`REVEALED`, records `revealTime`, and sets `win := true` on every matching
ticket of the current round (updating the winners' statistics). -/
def revealWinningNumber (keccak : Nat → Nat → Nat → Nat → Nat → Nat)
    (s : LotteryState) (caller now roomId privateKey winningNumber : Nat) :
    Except Err LotteryState :=
  if caller ≠ s.owner then .error .notOwner
  else if s.paused then .error .enforcedPause
  else if ¬ roomId < s.roomCount then .error .invalidRoom
  else
    let room := s.rooms roomId
    if room.revealed then .error .alreadyRevealed
    else if !(verifyWinningNumber keccak s roomId privateKey winningNumber) then
      .error .invalidVerification
    else
      let room1 :=
        { room with
          winningNumber := winningNumber
          revealed := true
          state := RoomState.REVEALED
          revealTime := now }
      let tickets := s.roomTicketsByRound roomId room.roundNumber
      let tickets1 := tickets.map (fun t =>
        if t.number = winningNumber then { t with win := true } else t)
      let stats1 := tickets.foldl (fun ps t =>
        if t.number = winningNumber then
          let pst := ps t.player
          upd ps t.player
            { pst with
              totalWins := pst.totalWins + 1
              roomWins := upd pst.roomWins roomId (pst.roomWins roomId + 1) }
        else ps) s.playerStats
      .ok { s with
            rooms := upd s.rooms roomId room1
            roomTicketsByRound := upd2 s.roomTicketsByRound roomId room.roundNumber tickets1
            playerStats := stats1 }

/-- The loop of `claimPrize` that checks whether every winning ticket of
the round is claimed (run after the caller's ticket has been marked). -/
def allWinningClaimed (tickets : List Ticket) (winningNumber : Nat)
    (claimed : Nat → Bool) : Bool :=
  (List.range tickets.length).all fun i =>
    decide ((tickets.getD i default).number ≠ winningNumber) || claimed i

/-- The state written by a `claimPrize` call that has passed all its
guards: mark the ticket claimed (before the transfer), bump the claimant's
statistics, recount the round's winning tickets, book the platform fee once
per round, pay out, and close the room when every winning ticket is
claimed. -/
def claimApply (s : LotteryState) (caller roomId ticketId : Nat) : LotteryState :=
  let room := s.rooms roomId
  let roundTickets := s.roomTicketsByRound roomId room.roundNumber
  let claimed1 := upd3 s.ticketClaimed roomId room.roundNumber ticketId true
  let pst := s.playerStats caller
  let stats1 := upd s.playerStats caller { pst with totalClaimed := pst.totalClaimed + 1 }
  let winningTicketCount := roundTickets.countP (fun t => t.number == room.winningNumber)
  let fees_trans :=
    if 0 < winningTicketCount then
      let platformFee := room.prizePool * PLATFORM_FEE / 100
      let adjustedPrizePool := room.prizePool - platformFee
      let cf := if room.feesCollected then s.collectedFees
                else s.collectedFees + platformFee
      let prizeAmount := adjustedPrizePool / winningTicketCount
      (cf, true, s.transfersOut ++ [(caller, prizeAmount)])
    else (s.collectedFees, room.feesCollected, s.transfersOut)
  let room1 := { room with feesCollected := fees_trans.2.1 }
  let room2 :=
    if allWinningClaimed roundTickets room.winningNumber (claimed1 roomId room.roundNumber) then
      if winningTicketCount = 0 then { room1 with state := RoomState.CLOSED }
      else { room1 with prizePool := 0, state := RoomState.CLOSED }
    else room1
  { s with
    ticketClaimed := claimed1
    playerStats := stats1
    collectedFees := fees_trans.1
    transfersOut := fees_trans.2.2
    rooms := upd s.rooms roomId room2 }

/-- `claimPrize(roomId, ticketId)`: `nonReentrant whenNotPaused validRoom`.
Guards in source order: ticket index in range for the current round, the
ticket's round matches, the caller owns it, its number equals the winning
number, and it is not yet claimed; on success the effect is `claimApply`. -/
def claimPrize (s : LotteryState) (caller roomId ticketId : Nat) :
    Except Err LotteryState :=
  if s.paused then .error .enforcedPause
  else if ¬ roomId < s.roomCount then .error .invalidRoom
  else
    let room := s.rooms roomId
    let roundTickets := s.roomTicketsByRound roomId room.roundNumber
    match roundTickets[ticketId]? with
    | none => .error .invalidTicket
    | some ticket =>
      if ticket.roundNumber ≠ room.roundNumber then .error .invalidTicket
      else if ticket.player ≠ caller then .error .invalidOwner
      else if ticket.number ≠ room.winningNumber then .error .invalidTicket
      else if s.ticketClaimed roomId room.roundNumber ticketId then .error .invalidTicket
      else .ok (claimApply s caller roomId ticketId)

/-- `forceCloseRoom(roomId)`: `onlyOwner nonReentrant validRoom`; only from
`REVEALED`, only after the grace period past `revealTime`; closes the room
and keeps the pool. -/
def forceCloseRoom (s : LotteryState) (caller now roomId : Nat) :
    Except Err LotteryState :=
  if caller ≠ s.owner then .error .notOwner
  else if ¬ roomId < s.roomCount then .error .invalidRoom
  else
    let room := s.rooms roomId
    if room.state ≠ RoomState.REVEALED then .error .invalidState
    else if now < room.revealTime + GRACE_PERIOD then .error .gracePeriodNotPassed
    else .ok { s with rooms := upd s.rooms roomId { room with state := RoomState.CLOSED } }

/-- `withdrawFees(amount)`: `onlyOwner nonReentrant`; `amount = 0` means
withdraw everything tracked; must not exceed `collectedFees`; transfers to
the owner. -/
def withdrawFees (s : LotteryState) (caller amount : Nat) : Except Err LotteryState :=
  if caller ≠ s.owner then .error .notOwner
  else
    let withdrawAmount := if amount = 0 then s.collectedFees else amount
    if s.collectedFees < withdrawAmount then .error .invalidAmount
    else .ok { s with
               collectedFees := s.collectedFees - withdrawAmount
               transfersOut := s.transfersOut ++ [(s.owner, withdrawAmount)] }

/-- `emergencyPause()`: `onlyOwner`; OpenZeppelin `_pause` reverts when
already paused. -/
def emergencyPause (s : LotteryState) (caller : Nat) : Except Err LotteryState :=
  if caller ≠ s.owner then .error .notOwner
  else if s.paused then .error .enforcedPause
  else .ok { s with paused := true }

/-- `resumeOperations()`: `onlyOwner`; OpenZeppelin `_unpause` reverts when
not paused. -/
def resumeOperations (s : LotteryState) (caller : Nat) : Except Err LotteryState :=
  if caller ≠ s.owner then .error .notOwner
  else if !s.paused then .error .expectedPause
  else .ok { s with paused := false }

/-- Boundary action of the external USDC token: a player approving an
allowance to the contract.  Not contract code; included so traces can model
funded purchases. -/
def approve (s : LotteryState) (player amount : Nat) : Except Err LotteryState :=
  .ok { s with allowance := upd s.allowance player amount }

/-- The public surface as a single operation type (plus the boundary
`approve`), for reasoning about arbitrary interleavings of calls. -/
inductive Op where
  | createRoom (caller : Nat) (name description : String) (entryFee drawTime enc : Nat)
  | resetRoom (caller roomId drawTime enc : Nat)
  | buyTicket (caller now roomId number : Nat)
  | revealWinningNumber (caller now roomId privateKey winningNumber : Nat)
  | claimPrize (caller roomId ticketId : Nat)
  | forceCloseRoom (caller now roomId : Nat)
  | withdrawFees (caller amount : Nat)
  | emergencyPause (caller : Nat)
  | resumeOperations (caller : Nat)
  | approve (player amount : Nat)

/-- Dispatch one operation. -/
def run (keccak : Nat → Nat → Nat → Nat → Nat → Nat) (s : LotteryState) :
    Op → Except Err LotteryState
  | .createRoom c n d e t h => createRoom s c n d e t h
  | .resetRoom c rid t h => resetRoom s c rid t h
  | .buyTicket c now rid n => buyTicket s c now rid n
  | .revealWinningNumber c now rid k w => revealWinningNumber keccak s c now rid k w
  | .claimPrize c rid tid => claimPrize s c rid tid
  | .forceCloseRoom c now rid => forceCloseRoom s c now rid
  | .withdrawFees c a => withdrawFees s c a
  | .emergencyPause c => emergencyPause s c
  | .resumeOperations c => resumeOperations s c
  | .approve p a => approve s p a

/-- The persisted state after one call: a revert (error) rolls everything
back, which is the EVM's transaction semantics. -/
def step (keccak : Nat → Nat → Nat → Nat → Nat → Nat) (s : LotteryState) (op : Op) :
    LotteryState :=
  match run keccak s op with
  | .ok s1 => s1
  | .error _ => s

/-- The persisted state after a sequence of calls. -/
def steps (keccak : Nat → Nat → Nat → Nat → Nat → Nat) (s : LotteryState) :
    List Op → LotteryState
  | [] => s
  | op :: ops => steps keccak (step keccak s op) ops

/-- Freshly deployed contract: empty storage, the deployer as owner. -/
def initState (ownerAddr : Nat) : LotteryState :=
  { rooms := fun _ => {}
    playerTicketIds := fun _ _ => []
    roomTicketsByRound := fun _ _ => []
    ticketClaimed := fun _ _ _ => false
    roomCount := 0
    activeRoomIds := []
    collectedFees := 0
    owner := ownerAddr
    paused := false
    playerStats := fun _ => {}
    allowance := fun _ => 0
    transfersOut := [] }

/-! ### Basic lemmas about the mapping updates and the step semantics -/

theorem upd_self {α : Type} (f : Nat → α) (k : Nat) (v : α) : upd f k v k = v := by
  simp [upd]

theorem upd_ne {α : Type} (f : Nat → α) (k : Nat) (v : α) {i : Nat} (h : i ≠ k) :
    upd f k v i = f i := by
  simp [upd, h]

theorem upd2_self {α : Type} (f : Nat → Nat → α) (k1 k2 : Nat) (v : α) :
    upd2 f k1 k2 v k1 k2 = v := by
  simp [upd2, upd]

theorem upd2_ne {α : Type} (f : Nat → Nat → α) (k1 k2 : Nat) (v : α) {i j : Nat}
    (h : ¬(i = k1 ∧ j = k2)) : upd2 f k1 k2 v i j = f i j := by
  by_cases h1 : i = k1
  · subst h1
    have h2 : j ≠ k2 := fun hj => h ⟨rfl, hj⟩
    simp [upd2, upd, h2]
  · simp [upd2, upd, h1]

theorem upd3_self {α : Type} (f : Nat → Nat → Nat → α) (k1 k2 k3 : Nat) (v : α) :
    upd3 f k1 k2 k3 v k1 k2 k3 = v := by
  simp [upd3, upd2, upd]

theorem upd3_ne {α : Type} (f : Nat → Nat → Nat → α) (k1 k2 k3 : Nat) (v : α)
    {i j l : Nat} (h : ¬(i = k1 ∧ j = k2 ∧ l = k3)) : upd3 f k1 k2 k3 v i j l = f i j l := by
  by_cases h1 : i = k1
  · subst h1
    by_cases h2 : j = k2
    · subst h2
      have h3 : l ≠ k3 := fun hl => h ⟨rfl, rfl, hl⟩
      simp [upd3, upd2, upd, h3]
    · simp [upd3, upd2, upd, h2]
  · simp [upd3, upd2, upd, h1]

theorem step_of_error {keccak : Nat → Nat → Nat → Nat → Nat → Nat} {s : LotteryState}
    {op : Op} {e : Err} (h : run keccak s op = .error e) : step keccak s op = s := by
  simp [step, h]

theorem step_of_ok {keccak : Nat → Nat → Nat → Nat → Nat → Nat} {s s1 : LotteryState}
    {op : Op} (h : run keccak s op = .ok s1) : step keccak s op = s1 := by
  simp [step, h]

theorem steps_append (keccak : Nat → Nat → Nat → Nat → Nat → Nat) (s : LotteryState)
    (l1 l2 : List Op) : steps keccak s (l1 ++ l2) = steps keccak (steps keccak s l1) l2 := by
  induction l1 generalizing s with
  | nil => rfl
  | cons op ops ih => simp [steps, ih]

/-! ### Success-case inversion lemmas for each operation -/

theorem createRoom_ok {s s1 : LotteryState} {c : Nat} {n d : String} {e t enc : Nat}
    (h : createRoom s c n d e t enc = .ok s1) :
    c = s.owner ∧ s.paused = false ∧
    s1.roomTicketsByRound = s.roomTicketsByRound ∧
    s1.ticketClaimed = s.ticketClaimed ∧
    s1.collectedFees = s.collectedFees ∧
    s1.transfersOut = s.transfersOut ∧
    s1.owner = s.owner ∧ s1.paused = s.paused ∧
    s1.roomCount = s.roomCount + 1 ∧
    (∀ rid, rid < s.roomCount → s1.rooms rid = s.rooms rid) := by
  unfold createRoom at h
  dsimp only at h
  split_ifs at h with h1 h2 h3 h4
  all_goals injection h with h
  all_goals subst h
  all_goals refine ⟨not_not.mp h1, by simpa using h2, rfl, rfl, rfl, rfl, rfl, rfl, rfl, ?_⟩
  all_goals exact fun rid hrid => upd_ne _ _ _ (Nat.ne_of_lt hrid)

theorem resetRoom_ok {s s1 : LotteryState} {c rid t enc : Nat}
    (h : resetRoom s c rid t enc = .ok s1) :
    c = s.owner ∧ s.paused = false ∧ rid < s.roomCount ∧
    ((s.rooms rid).state = RoomState.CLOSED ∨ (s.rooms rid).state = RoomState.REVEALED) ∧
    s1.rooms rid =
      { s.rooms rid with
        drawTime := t
        encryptedWinningNumber := enc
        revealed := false
        state := RoomState.OPEN
        winningNumber := 0
        roundNumber := (s.rooms rid).roundNumber + 1
        feesCollected := false
        revealTime := 0 } ∧
    (∀ r, r ≠ rid → s1.rooms r = s.rooms r) ∧
    s1.roomTicketsByRound = s.roomTicketsByRound ∧
    s1.ticketClaimed = s.ticketClaimed ∧
    s1.collectedFees = s.collectedFees ∧
    s1.transfersOut = s.transfersOut ∧
    s1.roomCount = s.roomCount ∧ s1.owner = s.owner ∧ s1.paused = s.paused := by
  unfold resetRoom at h
  dsimp only at h
  split_ifs at h with h1 h2 h3 h4 h5
  all_goals injection h with h
  all_goals subst h
  all_goals refine ⟨not_not.mp h1, by simpa using h2, h3, by tauto, upd_self _ _ _,
    fun r hr => upd_ne _ _ _ hr, rfl, rfl, rfl, rfl, rfl, rfl, rfl⟩

theorem forceCloseRoom_ok {s s1 : LotteryState} {c now rid : Nat}
    (h : forceCloseRoom s c now rid = .ok s1) :
    c = s.owner ∧ rid < s.roomCount ∧ (s.rooms rid).state = RoomState.REVEALED ∧
    (s.rooms rid).revealTime + GRACE_PERIOD ≤ now ∧
    s1.rooms rid = { s.rooms rid with state := RoomState.CLOSED } ∧
    (∀ r, r ≠ rid → s1.rooms r = s.rooms r) ∧
    s1.roomTicketsByRound = s.roomTicketsByRound ∧
    s1.ticketClaimed = s.ticketClaimed ∧
    s1.collectedFees = s.collectedFees ∧
    s1.transfersOut = s.transfersOut ∧
    s1.roomCount = s.roomCount ∧ s1.owner = s.owner ∧ s1.paused = s.paused := by
  unfold forceCloseRoom at h
  dsimp only at h
  split_ifs at h with h1 h2 h3 h4
  all_goals injection h with h
  all_goals subst h
  all_goals exact ⟨not_not.mp h1, h2, not_not.mp h3, Nat.le_of_not_lt h4,
    upd_self _ _ _, fun r hr => upd_ne _ _ _ hr, rfl, rfl, rfl, rfl, rfl, rfl, rfl⟩

theorem withdrawFees_ok {s s1 : LotteryState} {c a : Nat}
    (h : withdrawFees s c a = .ok s1) :
    c = s.owner ∧
    (a = 0 → s1 = { s with
                    collectedFees := 0
                    transfersOut := s.transfersOut ++ [(s.owner, s.collectedFees)] }) ∧
    (a ≠ 0 → a ≤ s.collectedFees ∧
      s1 = { s with
             collectedFees := s.collectedFees - a
             transfersOut := s.transfersOut ++ [(s.owner, a)] }) := by
  unfold withdrawFees at h
  dsimp only at h
  split_ifs at h with h1 h2 h3 h4
  all_goals injection h with h
  all_goals subst h
  · exact ⟨not_not.mp h1, fun _ => by simp, fun hne => absurd h2 hne⟩
  · exact ⟨not_not.mp h1, fun h0 => absurd h0 h2, fun _ => ⟨Nat.le_of_not_lt h4, rfl⟩⟩

theorem emergencyPause_ok {s s1 : LotteryState} {c : Nat}
    (h : emergencyPause s c = .ok s1) :
    c = s.owner ∧ s.paused = false ∧ s1 = { s with paused := true } := by
  unfold emergencyPause at h
  split_ifs at h with h1 h2
  all_goals injection h with h
  all_goals subst h
  all_goals exact ⟨not_not.mp h1, by simpa using h2, rfl⟩

theorem resumeOperations_ok {s s1 : LotteryState} {c : Nat}
    (h : resumeOperations s c = .ok s1) :
    c = s.owner ∧ s.paused = true ∧ s1 = { s with paused := false } := by
  unfold resumeOperations at h
  split_ifs at h with h1 h2
  all_goals injection h with h
  all_goals subst h
  all_goals exact ⟨not_not.mp h1, by simpa using h2, rfl⟩

theorem buyTicket_ok {s s1 : LotteryState} {c now rid n : Nat}
    (h : buyTicket s c now rid n = .ok s1) :
    s.paused = false ∧ rid < s.roomCount ∧ now < (s.rooms rid).drawTime ∧ n ≤ 99 ∧
    (s.rooms rid).entryFee ≤ s.allowance c ∧
    s1.roomTicketsByRound = upd2 s.roomTicketsByRound rid (s.rooms rid).roundNumber
      (s.roomTicketsByRound rid (s.rooms rid).roundNumber ++
        [{ id := (s.roomTicketsByRound rid (s.rooms rid).roundNumber).length
           roomId := rid
           player := c
           number := n
           roundNumber := (s.rooms rid).roundNumber
           win := false }]) ∧
    s1.ticketClaimed = upd3 s.ticketClaimed rid (s.rooms rid).roundNumber
      (s.roomTicketsByRound rid (s.rooms rid).roundNumber).length false ∧
    s1.rooms = upd s.rooms rid
      { s.rooms rid with prizePool := (s.rooms rid).prizePool + (s.rooms rid).entryFee } ∧
    s1.collectedFees = s.collectedFees ∧ s1.transfersOut = s.transfersOut ∧
    s1.roomCount = s.roomCount ∧ s1.owner = s.owner ∧ s1.paused = s.paused := by
  unfold buyTicket at h
  dsimp only at h
  split_ifs at h with h1 h2 h3 h4 h5
  all_goals injection h with h
  all_goals subst h
  all_goals exact ⟨by simpa using h1, h2, Nat.lt_of_not_le h3, Nat.le_of_not_lt h4,
    Nat.le_of_not_lt h5, rfl, rfl, rfl, rfl, rfl, rfl, rfl, rfl⟩

theorem revealWinningNumber_ok {keccak : Nat → Nat → Nat → Nat → Nat → Nat}
    {s s1 : LotteryState} {c now rid key w : Nat}
    (h : revealWinningNumber keccak s c now rid key w = .ok s1) :
    c = s.owner ∧ s.paused = false ∧ rid < s.roomCount ∧
    (s.rooms rid).revealed = false ∧
    verifyWinningNumber keccak s rid key w = true ∧
    s1.rooms = upd s.rooms rid
      { s.rooms rid with
        winningNumber := w
        revealed := true
        state := RoomState.REVEALED
        revealTime := now } ∧
    s1.roomTicketsByRound = upd2 s.roomTicketsByRound rid (s.rooms rid).roundNumber
      ((s.roomTicketsByRound rid (s.rooms rid).roundNumber).map (fun t =>
        if t.number = w then { t with win := true } else t)) ∧
    s1.ticketClaimed = s.ticketClaimed ∧ s1.collectedFees = s.collectedFees ∧
    s1.transfersOut = s.transfersOut ∧ s1.roomCount = s.roomCount ∧
    s1.owner = s.owner ∧ s1.paused = s.paused := by
  unfold revealWinningNumber at h
  dsimp only at h
  split_ifs at h with h1 h2 h3 h4 h5
  all_goals injection h with h
  all_goals subst h
  all_goals exact ⟨not_not.mp h1, by simpa using h2, h3, by simpa using h4,
    by simpa using h5, rfl, rfl, rfl, rfl, rfl, rfl, rfl, rfl⟩

theorem approve_ok {s s1 : LotteryState} {p a : Nat}
    (h : approve s p a = .ok s1) :
    s1 = { s with allowance := upd s.allowance p a } := by
  unfold approve at h
  injection h with h
  exact h.symm

theorem claimPrize_ok {s s1 : LotteryState} {c rid tid : Nat}
    (h : claimPrize s c rid tid = .ok s1) :
    s.paused = false ∧ rid < s.roomCount ∧
    ∃ ticket,
      (s.roomTicketsByRound rid (s.rooms rid).roundNumber)[tid]? = some ticket ∧
      ticket.roundNumber = (s.rooms rid).roundNumber ∧
      ticket.player = c ∧
      ticket.number = (s.rooms rid).winningNumber ∧
      s.ticketClaimed rid (s.rooms rid).roundNumber tid = false ∧
      s1 = claimApply s c rid tid := by
  unfold claimPrize at h
  dsimp only at h
  split_ifs at h with h1 h2 hcl
  · split at h
    all_goals try exact Except.noConfusion h
    all_goals split_ifs at h
  · split at h
    · exact Except.noConfusion h
    · rename_i ticket heq
      split_ifs at h with h3 h4 h5
      injection h with h
      exact ⟨by simpa using h1, h2, ticket, heq, not_not.mp h3, not_not.mp h4,
        not_not.mp h5, by simpa using hcl, h.symm⟩

/-- With at least one winning ticket in the round, a passed-guards claim
pays exactly `(pool - pool * PLATFORM_FEE / 100) / winningTicketCount`. -/
theorem claimApply_transfersOut (s : LotteryState) (c rid tid : Nat)
    (hpos : 0 < (s.roomTicketsByRound rid (s.rooms rid).roundNumber).countP
        (fun t => t.number == (s.rooms rid).winningNumber)) :
    (claimApply s c rid tid).transfersOut = s.transfersOut ++
      [(c, ((s.rooms rid).prizePool - (s.rooms rid).prizePool * PLATFORM_FEE / 100) /
        (s.roomTicketsByRound rid (s.rooms rid).roundNumber).countP
          (fun t => t.number == (s.rooms rid).winningNumber))] := by
  unfold claimApply
  dsimp only
  rw [if_pos hpos]

/-- The fee is booked only when `feesCollected` was still false. -/
theorem claimApply_collectedFees (s : LotteryState) (c rid tid : Nat)
    (hpos : 0 < (s.roomTicketsByRound rid (s.rooms rid).roundNumber).countP
        (fun t => t.number == (s.rooms rid).winningNumber)) :
    (claimApply s c rid tid).collectedFees =
      (if (s.rooms rid).feesCollected then s.collectedFees
       else s.collectedFees + (s.rooms rid).prizePool * PLATFORM_FEE / 100) := by
  unfold claimApply
  dsimp only
  rw [if_pos hpos]

theorem claimApply_ticketClaimed (s : LotteryState) (c rid tid : Nat) :
    (claimApply s c rid tid).ticketClaimed =
      upd3 s.ticketClaimed rid (s.rooms rid).roundNumber tid true := rfl

/-- The claimed room after a successful paid claim: `feesCollected` is set;
if every winning ticket is now claimed the pool is zeroed and the room
closes, otherwise pool, state and all other fields are untouched. -/
theorem claimApply_rooms_self (s : LotteryState) (c rid tid : Nat)
    (hpos : 0 < (s.roomTicketsByRound rid (s.rooms rid).roundNumber).countP
        (fun t => t.number == (s.rooms rid).winningNumber)) :
    (claimApply s c rid tid).rooms rid =
      (if allWinningClaimed (s.roomTicketsByRound rid (s.rooms rid).roundNumber)
            (s.rooms rid).winningNumber
            (upd3 s.ticketClaimed rid (s.rooms rid).roundNumber tid true rid
              (s.rooms rid).roundNumber)
       then { s.rooms rid with
              feesCollected := true
              prizePool := 0
              state := RoomState.CLOSED }
       else { s.rooms rid with feesCollected := true }) := by
  unfold claimApply
  dsimp only
  rw [if_pos hpos]
  dsimp only
  rw [if_neg (Nat.pos_iff_ne_zero.mp hpos)]
  by_cases hall : allWinningClaimed (s.roomTicketsByRound rid (s.rooms rid).roundNumber)
      (s.rooms rid).winningNumber
      (upd3 s.ticketClaimed rid (s.rooms rid).roundNumber tid true rid
        (s.rooms rid).roundNumber) = true
  · rw [if_pos hall, upd_self]
  · rw [if_neg hall, upd_self]

theorem claimApply_rooms_other (s : LotteryState) (c rid tid : Nat) {r2 : Nat}
    (hne : r2 ≠ rid) : (claimApply s c rid tid).rooms r2 = s.rooms r2 := by
  unfold claimApply
  dsimp only
  exact upd_ne _ _ _ hne

theorem claimApply_frame (s : LotteryState) (c rid tid : Nat) :
    (claimApply s c rid tid).roomTicketsByRound = s.roomTicketsByRound ∧
    (claimApply s c rid tid).roomCount = s.roomCount ∧
    (claimApply s c rid tid).owner = s.owner ∧
    (claimApply s c rid tid).paused = s.paused ∧
    (claimApply s c rid tid).playerTicketIds = s.playerTicketIds ∧
    (claimApply s c rid tid).allowance = s.allowance := by
  exact ⟨rfl, rfl, rfl, rfl, rfl, rfl⟩

/-! ### A storage well-formedness invariant, preserved by every operation -/

/-- Well-formedness of the contract storage: every stored ticket has a
number in range and carries the round it is stored under, and a claimed
flag only marks an existing ticket of its round. -/
structure WF (s : LotteryState) : Prop where
  numLe : ∀ rid r, ∀ t ∈ s.roomTicketsByRound rid r, t.number ≤ 99
  roundEq : ∀ rid r, ∀ t ∈ s.roomTicketsByRound rid r, t.roundNumber = r
  claimedLt : ∀ rid r tid, s.ticketClaimed rid r tid = true →
    tid < (s.roomTicketsByRound rid r).length

theorem wf_initState (ownerAddr : Nat) : WF (initState ownerAddr) := by
  refine ⟨?_, ?_, ?_⟩
  · intro rid r t ht
    simp [initState] at ht
  · intro rid r t ht
    simp [initState] at ht
  · intro rid r tid hc
    simp [initState] at hc

theorem wf_buyTicket {s s1 : LotteryState} {c now rid n : Nat} (hwf : WF s)
    (h : buyTicket s c now rid n = .ok s1) : WF s1 := by
  obtain ⟨hp, hr, hdt, hn, hal, hT, hC, hR, _⟩ := buyTicket_ok h
  constructor
  · intro rid2 r2 t ht
    rw [hT] at ht
    by_cases hk : rid2 = rid ∧ r2 = (s.rooms rid).roundNumber
    · obtain ⟨e1, e2⟩ := hk
      subst e1; subst e2
      rw [upd2_self] at ht
      rcases List.mem_append.mp ht with hm | hm
      · exact hwf.numLe _ _ _ hm
      · rw [List.mem_singleton] at hm
        subst hm
        exact hn
    · rw [upd2_ne _ _ _ _ hk] at ht
      exact hwf.numLe _ _ _ ht
  · intro rid2 r2 t ht
    rw [hT] at ht
    by_cases hk : rid2 = rid ∧ r2 = (s.rooms rid).roundNumber
    · obtain ⟨e1, e2⟩ := hk
      subst e1; subst e2
      rw [upd2_self] at ht
      rcases List.mem_append.mp ht with hm | hm
      · exact hwf.roundEq _ _ _ hm
      · rw [List.mem_singleton] at hm
        subst hm
        rfl
    · rw [upd2_ne _ _ _ _ hk] at ht
      exact hwf.roundEq _ _ _ ht
  · intro rid2 r2 tid2 hc
    rw [hC] at hc
    rw [hT]
    by_cases hk : rid2 = rid ∧ r2 = (s.rooms rid).roundNumber ∧
        tid2 = (s.roomTicketsByRound rid (s.rooms rid).roundNumber).length
    · obtain ⟨e1, e2, e3⟩ := hk
      subst e1; subst e2; subst e3
      rw [upd3_self] at hc
      exact absurd hc (by simp)
    · rw [upd3_ne _ _ _ _ _ hk] at hc
      have hlt := hwf.claimedLt _ _ _ hc
      by_cases hk2 : rid2 = rid ∧ r2 = (s.rooms rid).roundNumber
      · obtain ⟨e1, e2⟩ := hk2
        subst e1; subst e2
        rw [upd2_self, List.length_append]
        omega
      · rw [upd2_ne _ _ _ _ hk2]
        exact hlt

theorem wf_revealWinningNumber {keccak : Nat → Nat → Nat → Nat → Nat → Nat}
    {s s1 : LotteryState} {c now rid key w : Nat} (hwf : WF s)
    (h : revealWinningNumber keccak s c now rid key w = .ok s1) : WF s1 := by
  obtain ⟨ho, hp, hr, hrev, hv, hRm, hT, hC, _⟩ := revealWinningNumber_ok h
  constructor
  · intro rid2 r2 t ht
    rw [hT] at ht
    by_cases hk : rid2 = rid ∧ r2 = (s.rooms rid).roundNumber
    · obtain ⟨e1, e2⟩ := hk
      subst e1; subst e2
      rw [upd2_self] at ht
      rcases List.mem_map.mp ht with ⟨t0, ht0, rfl⟩
      have hle := hwf.numLe _ _ _ ht0
      by_cases hw : t0.number = w
      · rw [if_pos hw]
        exact hle
      · rw [if_neg hw]
        exact hle
    · rw [upd2_ne _ _ _ _ hk] at ht
      exact hwf.numLe _ _ _ ht
  · intro rid2 r2 t ht
    rw [hT] at ht
    by_cases hk : rid2 = rid ∧ r2 = (s.rooms rid).roundNumber
    · obtain ⟨e1, e2⟩ := hk
      subst e1; subst e2
      rw [upd2_self] at ht
      rcases List.mem_map.mp ht with ⟨t0, ht0, rfl⟩
      have hre := hwf.roundEq _ _ _ ht0
      by_cases hw : t0.number = w
      · rw [if_pos hw]
        exact hre
      · rw [if_neg hw]
        exact hre
    · rw [upd2_ne _ _ _ _ hk] at ht
      exact hwf.roundEq _ _ _ ht
  · intro rid2 r2 tid2 hc
    rw [hC] at hc
    rw [hT]
    have hlt := hwf.claimedLt _ _ _ hc
    by_cases hk : rid2 = rid ∧ r2 = (s.rooms rid).roundNumber
    · obtain ⟨e1, e2⟩ := hk
      subst e1; subst e2
      rw [upd2_self, List.length_map]
      exact hlt
    · rw [upd2_ne _ _ _ _ hk]
      exact hlt

theorem wf_claimPrize {s s1 : LotteryState} {c rid tid : Nat} (hwf : WF s)
    (h : claimPrize s c rid tid = .ok s1) : WF s1 := by
  obtain ⟨hp, hr, ticket, heq, hrd, hpl, hnum, hclm, hs1⟩ := claimPrize_ok h
  subst hs1
  have htid : tid < (s.roomTicketsByRound rid (s.rooms rid).roundNumber).length :=
    (List.getElem?_eq_some.mp heq).1
  constructor
  · intro rid2 r2 t ht
    rw [(claimApply_frame s c rid tid).1] at ht
    exact hwf.numLe _ _ _ ht
  · intro rid2 r2 t ht
    rw [(claimApply_frame s c rid tid).1] at ht
    exact hwf.roundEq _ _ _ ht
  · intro rid2 r2 tid2 hc
    rw [claimApply_ticketClaimed] at hc
    rw [(claimApply_frame s c rid tid).1]
    by_cases hk : rid2 = rid ∧ r2 = (s.rooms rid).roundNumber ∧ tid2 = tid
    · obtain ⟨e1, e2, e3⟩ := hk
      subst e1; subst e2; subst e3
      exact htid
    · rw [upd3_ne _ _ _ _ _ hk] at hc
      exact hwf.claimedLt _ _ _ hc

theorem wf_run {keccak : Nat → Nat → Nat → Nat → Nat → Nat} {s s1 : LotteryState}
    {op : Op} (hwf : WF s) (h : run keccak s op = .ok s1) : WF s1 := by
  cases op with
  | createRoom c n d e t enc =>
    obtain ⟨_, _, hT, hC, _⟩ := createRoom_ok h
    exact ⟨fun rid r t ht => hwf.numLe rid r t (by rwa [hT] at ht),
      fun rid r t ht => hwf.roundEq rid r t (by rwa [hT] at ht),
      fun rid r tid hc => by rw [hT]; exact hwf.claimedLt rid r tid (by rwa [hC] at hc)⟩
  | resetRoom c rid t enc =>
    obtain ⟨_, _, _, _, _, _, hT, hC, _⟩ := resetRoom_ok h
    exact ⟨fun rid r t ht => hwf.numLe rid r t (by rwa [hT] at ht),
      fun rid r t ht => hwf.roundEq rid r t (by rwa [hT] at ht),
      fun rid r tid hc => by rw [hT]; exact hwf.claimedLt rid r tid (by rwa [hC] at hc)⟩
  | buyTicket c now rid n => exact wf_buyTicket hwf h
  | revealWinningNumber c now rid key w => exact wf_revealWinningNumber hwf h
  | claimPrize c rid tid => exact wf_claimPrize hwf h
  | forceCloseRoom c now rid =>
    obtain ⟨_, _, _, _, _, _, hT, hC, _⟩ := forceCloseRoom_ok h
    exact ⟨fun rid r t ht => hwf.numLe rid r t (by rwa [hT] at ht),
      fun rid r t ht => hwf.roundEq rid r t (by rwa [hT] at ht),
      fun rid r tid hc => by rw [hT]; exact hwf.claimedLt rid r tid (by rwa [hC] at hc)⟩
  | withdrawFees c a =>
    obtain ⟨_, h0, hne⟩ := withdrawFees_ok h
    by_cases ha : a = 0
    · rw [h0 ha]
      exact ⟨hwf.numLe, hwf.roundEq, hwf.claimedLt⟩
    · rw [(hne ha).2]
      exact ⟨hwf.numLe, hwf.roundEq, hwf.claimedLt⟩
  | emergencyPause c =>
    obtain ⟨_, _, hs1⟩ := emergencyPause_ok h
    rw [hs1]
    exact ⟨hwf.numLe, hwf.roundEq, hwf.claimedLt⟩
  | resumeOperations c =>
    obtain ⟨_, _, hs1⟩ := resumeOperations_ok h
    rw [hs1]
    exact ⟨hwf.numLe, hwf.roundEq, hwf.claimedLt⟩
  | approve p a =>
    rw [approve_ok h]
    exact ⟨hwf.numLe, hwf.roundEq, hwf.claimedLt⟩

theorem wf_step {keccak : Nat → Nat → Nat → Nat → Nat → Nat} {s : LotteryState}
    {op : Op} (hwf : WF s) : WF (step keccak s op) := by
  unfold step
  cases hrun : run keccak s op with
  | ok s1 => exact wf_run hwf hrun
  | error e => exact hwf

theorem wf_steps {keccak : Nat → Nat → Nat → Nat → Nat → Nat} {s : LotteryState}
    (hwf : WF s) (l : List Op) : WF (steps keccak s l) := by
  induction l generalizing s with
  | nil => exact hwf
  | cons op ops ih => exact ih (wf_step hwf)

end LotteryMiniPay

namespace LotteryMiniPay

/-! ### Frame lemmas: what a step can and cannot change within a round -/

/-- The immutable part of a stored ticket (everything except `win`). -/
def Ticket.core (t : Ticket) : Nat × Nat × Nat × Nat × Nat :=
  (t.id, t.roomId, t.player, t.number, t.roundNumber)

/-- `l2` extends `l`: no stored ticket is removed and every already stored
ticket keeps its identity, owner, number and round (only `win` may flip). -/
def TicketsExtend (l l2 : List Ticket) : Prop :=
  l.length ≤ l2.length ∧
  ∀ i, i < l.length → (l2[i]?).map Ticket.core = (l[i]?).map Ticket.core

theorem ticketsExtend_refl (l : List Ticket) : TicketsExtend l l :=
  ⟨Nat.le_refl _, fun _ _ => rfl⟩

theorem ticketsExtend_trans {l1 l2 l3 : List Ticket}
    (h12 : TicketsExtend l1 l2) (h23 : TicketsExtend l2 l3) : TicketsExtend l1 l3 := by
  refine ⟨Nat.le_trans h12.1 h23.1, fun i hi => ?_⟩
  rw [h23.2 i (Nat.lt_of_lt_of_le hi h12.1), h12.2 i hi]

theorem ticketsExtend_append (l l2 : List Ticket) : TicketsExtend l (l ++ l2) := by
  refine ⟨by simp, fun i hi => ?_⟩
  rw [List.getElem?_append_left hi]

theorem ticketsExtend_map_win (l : List Ticket) (w : Nat) :
    TicketsExtend l (l.map (fun t => if t.number = w then { t with win := true } else t)) := by
  refine ⟨by simp, fun i hi => ?_⟩
  rw [List.getElem?_map]
  cases hge : l[i]? with
  | none => rfl
  | some t =>
    by_cases hw : t.number = w
    · simp [hw, Ticket.core]
    · simp [hw]

end LotteryMiniPay

namespace LotteryMiniPay

theorem claimApply_rooms_roundNumber (s : LotteryState) (c rid tid : Nat) (r2 : Nat) :
    ((claimApply s c rid tid).rooms r2).roundNumber = (s.rooms r2).roundNumber := by
  unfold claimApply
  dsimp only
  by_cases hr : r2 = rid
  · subst hr
    rw [upd_self]
    split_ifs <;> rfl
  · rw [upd_ne _ _ _ hr]

theorem claimApply_rooms_revealed (s : LotteryState) (c rid tid : Nat) (r2 : Nat) :
    ((claimApply s c rid tid).rooms r2).revealed = (s.rooms r2).revealed := by
  unfold claimApply
  dsimp only
  by_cases hr : r2 = rid
  · subst hr
    rw [upd_self]
    split_ifs <;> rfl
  · rw [upd_ne _ _ _ hr]

theorem claimApply_claimed_mono (s : LotteryState) (c rid tid : Nat)
    {rid2 r2 tid2 : Nat} (h : s.ticketClaimed rid2 r2 tid2 = true) :
    (claimApply s c rid tid).ticketClaimed rid2 r2 tid2 = true := by
  rw [claimApply_ticketClaimed]
  by_cases hk : rid2 = rid ∧ r2 = (s.rooms rid).roundNumber ∧ tid2 = tid
  · obtain ⟨e1, e2, e3⟩ := hk
    subst e1; subst e2; subst e3
    rw [upd3_self]
  · rw [upd3_ne _ _ _ _ _ hk]
    exact h

theorem step_mono (keccak : Nat → Nat → Nat → Nat → Nat → Nat) (s : LotteryState)
    (op : Op) (rid : Nat) (hrid : rid < s.roomCount) :
    s.roomCount ≤ (step keccak s op).roomCount ∧
    (s.rooms rid).roundNumber ≤ ((step keccak s op).rooms rid).roundNumber := by
  unfold step
  cases hrun : run keccak s op with
  | error e => exact ⟨Nat.le_refl _, Nat.le_refl _⟩
  | ok s1 =>
    cases op with
    | createRoom c n d e t enc =>
      obtain ⟨_, _, _, _, _, _, _, _, hRC, hlow⟩ := createRoom_ok hrun
      rw [hRC, hlow rid hrid]
      exact ⟨Nat.le_succ _, Nat.le_refl _⟩
    | resetRoom c rid2 t enc =>
      obtain ⟨_, _, _, _, hself, hother, _, _, _, _, hRC, _, _⟩ := resetRoom_ok hrun
      refine ⟨by rw [hRC], ?_⟩
      by_cases he : rid = rid2
      · subst he
        rw [hself]
        exact Nat.le_succ _
      · rw [hother rid he]
    | buyTicket c now rid2 n =>
      obtain ⟨_, _, _, _, _, _, _, hRooms, _, _, hRC, _, _⟩ := buyTicket_ok hrun
      refine ⟨by rw [hRC], ?_⟩
      rw [hRooms]
      by_cases he : rid = rid2
      · subst he
        rw [upd_self]
      · rw [upd_ne _ _ _ he]
    | revealWinningNumber c now rid2 key w =>
      obtain ⟨_, _, _, _, _, hRooms, _, _, _, _, hRC, _, _⟩ := revealWinningNumber_ok hrun
      refine ⟨by rw [hRC], ?_⟩
      rw [hRooms]
      by_cases he : rid = rid2
      · subst he
        rw [upd_self]
      · rw [upd_ne _ _ _ he]
    | claimPrize c rid2 tid =>
      obtain ⟨_, _, ticket, _, _, _, _, _, hs1⟩ := claimPrize_ok hrun
      subst hs1
      rw [(claimApply_frame s c rid2 tid).2.1, claimApply_rooms_roundNumber]
      exact ⟨Nat.le_refl _, Nat.le_refl _⟩
    | forceCloseRoom c now rid2 =>
      obtain ⟨_, _, _, _, hself, hother, _, _, _, _, hRC, _, _⟩ := forceCloseRoom_ok hrun
      refine ⟨by rw [hRC], ?_⟩
      by_cases he : rid = rid2
      · subst he
        rw [hself]
      · rw [hother rid he]
    | withdrawFees c a =>
      obtain ⟨_, h0, hne⟩ := withdrawFees_ok hrun
      by_cases ha : a = 0
      · rw [h0 ha]
        exact ⟨Nat.le_refl _, Nat.le_refl _⟩
      · rw [(hne ha).2]
        exact ⟨Nat.le_refl _, Nat.le_refl _⟩
    | emergencyPause c =>
      obtain ⟨_, _, hs1⟩ := emergencyPause_ok hrun
      rw [hs1]
      exact ⟨Nat.le_refl _, Nat.le_refl _⟩
    | resumeOperations c =>
      obtain ⟨_, _, hs1⟩ := resumeOperations_ok hrun
      rw [hs1]
      exact ⟨Nat.le_refl _, Nat.le_refl _⟩
    | approve p a =>
      rw [approve_ok hrun]
      exact ⟨Nat.le_refl _, Nat.le_refl _⟩

theorem steps_mono (keccak : Nat → Nat → Nat → Nat → Nat → Nat) (s : LotteryState)
    (l : List Op) (rid : Nat) (hrid : rid < s.roomCount) :
    s.roomCount ≤ (steps keccak s l).roomCount ∧
    (s.rooms rid).roundNumber ≤ ((steps keccak s l).rooms rid).roundNumber := by
  induction l generalizing s with
  | nil => exact ⟨Nat.le_refl _, Nat.le_refl _⟩
  | cons op ops ih =>
    have h1 := step_mono keccak s op rid hrid
    have h2 := ih (step keccak s op) (Nat.lt_of_lt_of_le hrid h1.1)
    exact ⟨Nat.le_trans h1.1 h2.1, Nat.le_trans h1.2 h2.2⟩

end LotteryMiniPay

namespace LotteryMiniPay

/-- One step that leaves a room's round number unchanged can only extend
that round's ticket list (cores intact), never unsets a claimed flag of
that round, and never unsets `revealed`. -/
theorem step_frame {keccak : Nat → Nat → Nat → Nat → Nat → Nat} (s : LotteryState)
    (op : Op) (rid : Nat) (hrid : rid < s.roomCount) (hwf : WF s)
    (hround : ((step keccak s op).rooms rid).roundNumber = (s.rooms rid).roundNumber) :
    TicketsExtend (s.roomTicketsByRound rid (s.rooms rid).roundNumber)
      ((step keccak s op).roomTicketsByRound rid (s.rooms rid).roundNumber) ∧
    (∀ tid, s.ticketClaimed rid (s.rooms rid).roundNumber tid = true →
      (step keccak s op).ticketClaimed rid (s.rooms rid).roundNumber tid = true) ∧
    ((s.rooms rid).revealed = true → ((step keccak s op).rooms rid).revealed = true) := by
  cases hrun : run keccak s op with
  | error e =>
    rw [step_of_error hrun]
    exact ⟨ticketsExtend_refl _, fun _ h => h, fun h => h⟩
  | ok s1 =>
    rw [step_of_ok hrun] at hround ⊢
    cases op with
    | createRoom c n d e t enc =>
      obtain ⟨_, _, hT, hC, _, _, _, _, _, hlow⟩ := createRoom_ok hrun
      rw [hT, hC, hlow rid hrid]
      exact ⟨ticketsExtend_refl _, fun _ h => h, fun h => h⟩
    | resetRoom c rid2 t enc =>
      obtain ⟨_, _, _, _, hself, hother, hT, hC, _⟩ := resetRoom_ok hrun
      by_cases he : rid = rid2
      · subst he
        rw [hself] at hround
        simp at hround
      · rw [hT, hC, hother rid he]
        exact ⟨ticketsExtend_refl _, fun _ h => h, fun h => h⟩
    | buyTicket c now rid2 n =>
      obtain ⟨_, _, _, _, _, hT, hC, hRooms, _⟩ := buyTicket_ok hrun
      by_cases he : rid = rid2
      · subst he
        refine ⟨?_, ?_, ?_⟩
        · rw [hT, upd2_self]
          exact ticketsExtend_append _ _
        · intro tid2 hcl
          have hlt := hwf.claimedLt _ _ _ hcl
          have hk : ¬(rid = rid ∧
              (s.rooms rid).roundNumber = (s.rooms rid).roundNumber ∧
              tid2 = (s.roomTicketsByRound rid (s.rooms rid).roundNumber).length) := by
            rintro ⟨-, -, e3⟩
            omega
          rw [hC, upd3_ne _ _ _ _ _ hk]
          exact hcl
        · intro hrev
          rw [hRooms, upd_self]
          exact hrev
      · refine ⟨?_, ?_, ?_⟩
        · rw [hT, upd2_ne _ _ _ _ (fun hk => he hk.1)]
          exact ticketsExtend_refl _
        · intro tid2 hcl
          rw [hC, upd3_ne _ _ _ _ _ (fun hk => he hk.1)]
          exact hcl
        · intro hrev
          rw [hRooms, upd_ne _ _ _ he]
          exact hrev
    | revealWinningNumber c now rid2 key w =>
      obtain ⟨_, _, _, _, _, hRooms, hT, hC, _⟩ := revealWinningNumber_ok hrun
      by_cases he : rid = rid2
      · subst he
        refine ⟨?_, ?_, ?_⟩
        · rw [hT, upd2_self]
          exact ticketsExtend_map_win _ _
        · intro tid2 hcl
          rw [hC]
          exact hcl
        · intro hrev
          rw [hRooms, upd_self]
      · refine ⟨?_, ?_, ?_⟩
        · rw [hT, upd2_ne _ _ _ _ (fun hk => he hk.1)]
          exact ticketsExtend_refl _
        · intro tid2 hcl
          rw [hC]
          exact hcl
        · intro hrev
          rw [hRooms, upd_ne _ _ _ he]
          exact hrev
    | claimPrize c rid2 tid =>
      obtain ⟨_, _, ticket, _, _, _, _, _, hs1⟩ := claimPrize_ok hrun
      subst hs1
      refine ⟨?_, ?_, ?_⟩
      · rw [(claimApply_frame s c rid2 tid).1]
        exact ticketsExtend_refl _
      · intro tid2 hcl
        exact claimApply_claimed_mono s c rid2 tid hcl
      · intro hrev
        rw [claimApply_rooms_revealed]
        exact hrev
    | forceCloseRoom c now rid2 =>
      obtain ⟨_, _, _, _, hself, hother, hT, hC, _⟩ := forceCloseRoom_ok hrun
      refine ⟨?_, ?_, ?_⟩
      · rw [hT]
        exact ticketsExtend_refl _
      · intro tid2 hcl
        rw [hC]
        exact hcl
      · intro hrev
        by_cases he : rid = rid2
        · subst he
          rw [hself]
          exact hrev
        · rw [hother rid he]
          exact hrev
    | withdrawFees c a =>
      obtain ⟨_, h0, hne⟩ := withdrawFees_ok hrun
      by_cases ha : a = 0
      · rw [h0 ha]
        exact ⟨ticketsExtend_refl _, fun _ h => h, fun h => h⟩
      · rw [(hne ha).2]
        exact ⟨ticketsExtend_refl _, fun _ h => h, fun h => h⟩
    | emergencyPause c =>
      obtain ⟨_, _, hs1⟩ := emergencyPause_ok hrun
      rw [hs1]
      exact ⟨ticketsExtend_refl _, fun _ h => h, fun h => h⟩
    | resumeOperations c =>
      obtain ⟨_, _, hs1⟩ := resumeOperations_ok hrun
      rw [hs1]
      exact ⟨ticketsExtend_refl _, fun _ h => h, fun h => h⟩
    | approve p a =>
      rw [approve_ok hrun]
      exact ⟨ticketsExtend_refl _, fun _ h => h, fun h => h⟩

end LotteryMiniPay

namespace LotteryMiniPay

/-- Across any call sequence that leaves a room's round number unchanged,
the round's ticket list only grows (cores intact), claimed flags of that
round are never reset, and `revealed` is never unset. -/
theorem steps_frame {keccak : Nat → Nat → Nat → Nat → Nat → Nat} (s : LotteryState)
    (l : List Op) (rid : Nat) (hrid : rid < s.roomCount) (hwf : WF s)
    (hround : ((steps keccak s l).rooms rid).roundNumber = (s.rooms rid).roundNumber) :
    TicketsExtend (s.roomTicketsByRound rid (s.rooms rid).roundNumber)
      ((steps keccak s l).roomTicketsByRound rid (s.rooms rid).roundNumber) ∧
    (∀ tid, s.ticketClaimed rid (s.rooms rid).roundNumber tid = true →
      (steps keccak s l).ticketClaimed rid (s.rooms rid).roundNumber tid = true) ∧
    ((s.rooms rid).revealed = true → ((steps keccak s l).rooms rid).revealed = true) ∧
    rid < (steps keccak s l).roomCount := by
  induction l generalizing s with
  | nil => exact ⟨ticketsExtend_refl _, fun _ h => h, fun h => h, hrid⟩
  | cons op ops ih =>
    have hsteps : steps keccak s (op :: ops) = steps keccak (step keccak s op) ops := rfl
    rw [hsteps] at hround ⊢
    have hmono1 := step_mono keccak s op rid hrid
    have hmid_rid : rid < (step keccak s op).roomCount := Nat.lt_of_lt_of_le hrid hmono1.1
    have hmono2 := steps_mono keccak (step keccak s op) ops rid hmid_rid
    have hmid_round : ((step keccak s op).rooms rid).roundNumber =
        (s.rooms rid).roundNumber := by
      have h1 := hmono1.2
      have h2 := hmono2.2
      omega
    have hf1 := step_frame s op rid hrid hwf hmid_round
    have hround2 : ((steps keccak (step keccak s op) ops).rooms rid).roundNumber =
        ((step keccak s op).rooms rid).roundNumber := by
      rw [hmid_round]
      exact hround
    have hf2 := ih (step keccak s op) hmid_rid (wf_step hwf) hround2
    rw [hmid_round] at hf2
    refine ⟨ticketsExtend_trans hf1.1 hf2.1, ?_, ?_, hf2.2.2.2⟩
    · intro tid hcl
      exact hf2.2.1 tid (hf1.2.1 tid hcl)
    · intro hrev
      exact hf2.2.2.1 (hf1.2.2 hrev)

end LotteryMiniPay

namespace LotteryMiniPay

/-- When every guard holds, `claimPrize` succeeds and applies `claimApply`. -/
theorem claimPrize_guards_ok {s : LotteryState} {c rid tid : Nat} {ticket : Ticket}
    (hp : s.paused = false) (hrid : rid < s.roomCount)
    (heq : (s.roomTicketsByRound rid (s.rooms rid).roundNumber)[tid]? = some ticket)
    (hrd : ticket.roundNumber = (s.rooms rid).roundNumber)
    (hpl : ticket.player = c)
    (hnum : ticket.number = (s.rooms rid).winningNumber)
    (hclm : s.ticketClaimed rid (s.rooms rid).roundNumber tid = false) :
    claimPrize s c rid tid = .ok (claimApply s c rid tid) := by
  unfold claimPrize
  rw [if_neg (by simp [hp])]
  rw [if_neg (not_not_intro hrid)]
  dsimp only
  rw [heq]
  dsimp only
  rw [if_neg (not_not_intro hrd), if_neg (not_not_intro hpl), if_neg (not_not_intro hnum),
    if_neg (by simp [hclm])]

/-- A claim on an already claimed ticket of the current round, by the
ticket's owner, fails with `InvalidTicket` (whatever the winning number
now is). -/
theorem claimPrize_claimed_error {s : LotteryState} {c rid tid : Nat} {ticket : Ticket}
    (hp : s.paused = false) (hrid : rid < s.roomCount)
    (heq : (s.roomTicketsByRound rid (s.rooms rid).roundNumber)[tid]? = some ticket)
    (hrd : ticket.roundNumber = (s.rooms rid).roundNumber)
    (hpl : ticket.player = c)
    (hclm : s.ticketClaimed rid (s.rooms rid).roundNumber tid = true) :
    claimPrize s c rid tid = .error .invalidTicket := by
  unfold claimPrize
  rw [if_neg (by simp [hp])]
  rw [if_neg (not_not_intro hrid)]
  dsimp only
  rw [heq]
  dsimp only
  rw [if_neg (not_not_intro hrd), if_neg (not_not_intro hpl)]
  by_cases hnum : ticket.number = (s.rooms rid).winningNumber
  · rw [if_neg (not_not_intro hnum), if_pos hclm]
  · rw [if_pos hnum]

end LotteryMiniPay

namespace LotteryMiniPay

/-- Number of winning tickets of the round already claimed, counted by
ticket index, mirroring the all-claimed loop of `claimPrize`. -/
def claimedWinners (l : List Ticket) (w : Nat) (claimed : Nat → Bool) : Nat :=
  (List.range l.length).countP (fun i => ((l.getD i default).number == w) && claimed i)

theorem countP_range_getD (l : List Ticket) (p : Ticket → Bool) :
    (List.range l.length).countP (fun i => p (l.getD i default)) = l.countP p := by
  induction l using List.reverseRecOn with
  | nil => rfl
  | append_singleton l a ih =>
    rw [List.length_append, List.length_singleton, List.range_succ, List.countP_append,
      List.countP_append]
    have h1 : (List.range l.length).countP (fun i => p ((l ++ [a]).getD i default)) =
        (List.range l.length).countP (fun i => p (l.getD i default)) := by
      apply List.countP_congr
      intro i hi
      rw [List.getD_append _ _ _ _ (List.mem_range.mp hi)]
    have h2 : (l ++ [a]).getD l.length default = a := by
      simp
    rw [h1, ih]
    simp [List.countP_cons, h2]

theorem countP_range_update (n i0 : Nat) (p : Nat → Bool) (hi : i0 < n)
    (hp : p i0 = false) :
    (List.range n).countP (fun i => if i = i0 then true else p i) =
      (List.range n).countP p + 1 := by
  induction n with
  | zero => omega
  | succ n ih =>
    rw [List.range_succ, List.countP_append, List.countP_append]
    by_cases hcase : i0 = n
    · subst hcase
      have h1 : (List.range i0).countP (fun i => if i = i0 then true else p i) =
          (List.range i0).countP p := by
        apply List.countP_congr
        intro i hik
        have hne : i ≠ i0 := Nat.ne_of_lt (List.mem_range.mp hik)
        simp [hne]
      rw [h1]
      simp [List.countP_cons, hp]
    · have hi0 : i0 < n := by omega
      rw [ih hi0]
      have hne : ¬ n = i0 := fun he => hcase he.symm
      simp [List.countP_cons, hne]
      omega

theorem allWinningClaimed_iff (l : List Ticket) (w : Nat) (cl : Nat → Bool) :
    allWinningClaimed l w cl = true ↔
      ∀ i, i < l.length → (l.getD i default).number = w → cl i = true := by
  unfold allWinningClaimed
  rw [List.all_eq_true]
  constructor
  · intro h i hi hw
    have h2 := h i (List.mem_range.mpr hi)
    rcases Bool.or_eq_true_iff.mp h2 with h3 | h3
    · exact absurd hw (by simpa using h3)
    · exact h3
  · intro h i hi
    by_cases hw : (l.getD i default).number = w
    · rw [h i (List.mem_range.mp hi) hw]
      exact Bool.or_true _
    · rw [decide_eq_true hw]
      exact Bool.true_or _

theorem allWinningClaimed_false_of (l : List Ticket) (w : Nat) (cl : Nat → Bool)
    (i : Nat) (hi : i < l.length) (hw : (l.getD i default).number = w)
    (hc : cl i = false) : allWinningClaimed l w cl = false := by
  cases hall : allWinningClaimed l w cl with
  | false => rfl
  | true =>
    have := (allWinningClaimed_iff l w cl).mp hall i hi hw
    rw [this] at hc
    exact absurd hc (by simp)

theorem allWinningClaimed_mono (l : List Ticket) (w : Nat) (cl cl2 : Nat → Bool)
    (hmono : ∀ i, cl i = true → cl2 i = true)
    (hall : allWinningClaimed l w cl = true) : allWinningClaimed l w cl2 = true := by
  rw [allWinningClaimed_iff] at hall ⊢
  intro i hi hw
  exact hmono i (hall i hi hw)

theorem claimedWinners_le (l : List Ticket) (w : Nat) (cl : Nat → Bool) :
    claimedWinners l w cl ≤ l.countP (fun t => t.number == w) := by
  rw [← countP_range_getD l (fun t => t.number == w)]
  apply List.countP_mono_left
  intro i _ h
  rw [Bool.and_eq_true] at h
  exact h.1

theorem claimedWinners_eq_of_all (l : List Ticket) (w : Nat) (cl : Nat → Bool)
    (hall : allWinningClaimed l w cl = true) :
    claimedWinners l w cl = l.countP (fun t => t.number == w) := by
  rw [← countP_range_getD l (fun t => t.number == w)]
  apply List.countP_congr
  intro i hi
  have hi2 := List.mem_range.mp hi
  constructor
  · intro h
    rw [Bool.and_eq_true] at h
    exact h.1
  · intro h
    have hw : (l.getD i default).number = w := by
      rw [← beq_iff_eq]
      exact h
    have hcl := (allWinningClaimed_iff l w cl).mp hall i hi2 hw
    rw [h, hcl]
    rfl

theorem claimedWinners_update (l : List Ticket) (w : Nat) (cl : Nat → Bool) (tid : Nat)
    (hlt : tid < l.length) (hw : (l.getD tid default).number = w)
    (hc : cl tid = false) :
    claimedWinners l w (fun i => if i = tid then true else cl i) =
      claimedWinners l w cl + 1 := by
  unfold claimedWinners
  have h1 : ∀ i ∈ List.range l.length,
      ((((l.getD i default).number == w) && (if i = tid then true else cl i)) = true ↔
       ((if i = tid then true else ((l.getD i default).number == w) && cl i)) = true) := by
    intro i _
    by_cases he : i = tid
    · subst he
      rw [if_pos rfl, if_pos rfl, Bool.and_true, beq_iff_eq]
      exact iff_of_true hw rfl
    · rw [if_neg he, if_neg he]
  rw [List.countP_congr h1]
  refine countP_range_update _ _ _ hlt ?_
  rw [hc, Bool.and_false]

theorem upd3_app2 {α : Type} (f : Nat → Nat → Nat → α) (k1 k2 k3 : Nat) (v : α) :
    upd3 f k1 k2 k3 v k1 k2 = fun i => if i = k3 then v else f k1 k2 i := by
  funext i
  simp [upd3, upd2, upd]

end LotteryMiniPay

namespace LotteryMiniPay

theorem claimApply_rooms_winningNumber (s : LotteryState) (c rid tid : Nat) (r2 : Nat) :
    ((claimApply s c rid tid).rooms r2).winningNumber = (s.rooms r2).winningNumber := by
  unfold claimApply
  dsimp only
  by_cases hr : r2 = rid
  · subst hr
    rw [upd_self]
    split_ifs <;> rfl
  · rw [upd_ne _ _ _ hr]

/-- Invariant maintained by a sequence of `claimPrize` calls on room `rid`
for a round frozen with tickets `l`, winning number `W`, pool `P`, starting
fee account `cf0` and starting transfer log `t0`. -/
structure ConsInv (r W : Nat) (l : List Ticket) (P cf0 : Nat)
    (t0 : List (Nat × Nat)) (rid : Nat) (s : LotteryState) : Prop where
  round : (s.rooms rid).roundNumber = r
  wnum : (s.rooms rid).winningNumber = W
  tickets : s.roomTicketsByRound rid r = l
  onlyWinners : ∀ tid, s.ticketClaimed rid r tid = true →
    tid < l.length ∧ (l.getD tid default).number = W
  pool : (s.rooms rid).prizePool =
    (if allWinningClaimed l W (s.ticketClaimed rid r) then 0 else P)
  feesC : (s.rooms rid).feesCollected = true ↔
    0 < claimedWinners l W (s.ticketClaimed rid r)
  fees : s.collectedFees = cf0 +
    (if 0 < claimedWinners l W (s.ticketClaimed rid r) then P * PLATFORM_FEE / 100 else 0)
  paid : ∃ ext, s.transfersOut = t0 ++ ext ∧
    (∀ e ∈ ext, e.2 = (P - P * PLATFORM_FEE / 100) /
      l.countP (fun t => t.number == W)) ∧
    ext.length = claimedWinners l W (s.ticketClaimed rid r)

theorem consInv_step {keccak : Nat → Nat → Nat → Nat → Nat → Nat}
    {r W : Nat} {l : List Ticket} {P cf0 : Nat} {t0 : List (Nat × Nat)} {rid : Nat}
    {s : LotteryState} (inv : ConsInv r W l P cf0 t0 rid s) (c tid : Nat) :
    ConsInv r W l P cf0 t0 rid (step keccak s (Op.claimPrize c rid tid)) := by
  cases hrun : run keccak s (Op.claimPrize c rid tid) with
  | error e =>
    rw [step_of_error hrun]
    exact inv
  | ok s1 =>
    rw [step_of_ok hrun]
    have hrun2 : claimPrize s c rid tid = .ok s1 := hrun
    obtain ⟨hp, hrid, ticket, heq, hrd, hpl, hnum, hclm, hs1⟩ := claimPrize_ok hrun2
    subst hs1
    have hround_s : (s.rooms rid).roundNumber = r := inv.round
    have heql : l[tid]? = some ticket := by
      rw [← inv.tickets, ← hround_s]
      exact heq
    have hlt : tid < l.length := (List.getElem?_eq_some.mp heql).1
    have hgetD : l.getD tid default = ticket := by
      simp [List.getD, heql]
    have hwin : ticket.number = W := by
      rw [hnum, inv.wnum]
    have hclmOld : s.ticketClaimed rid r tid = false := by
      rw [← hround_s]
      exact hclm
    have hposS : 0 < (s.roomTicketsByRound rid (s.rooms rid).roundNumber).countP
        (fun t => t.number == (s.rooms rid).winningNumber) := by
      rw [hround_s, inv.tickets, inv.wnum]
      refine List.countP_pos_iff.mpr ⟨ticket, List.getElem?_mem heql, ?_⟩
      rw [beq_iff_eq]
      exact hwin
    have hclNew : (claimApply s c rid tid).ticketClaimed rid r =
        fun i => if i = tid then true else s.ticketClaimed rid r i := by
      rw [claimApply_ticketClaimed, hround_s, upd3_app2]
    have hmNew : claimedWinners l W ((claimApply s c rid tid).ticketClaimed rid r) =
        claimedWinners l W (s.ticketClaimed rid r) + 1 := by
      rw [hclNew]
      exact claimedWinners_update l W _ tid hlt (by rw [hgetD]; exact hwin) hclmOld
    have hallOld : allWinningClaimed l W (s.ticketClaimed rid r) = false :=
      allWinningClaimed_false_of l W _ tid hlt (by rw [hgetD]; exact hwin) hclmOld
    have hpoolS : (s.rooms rid).prizePool = P := by
      rw [inv.pool, hallOld]
      simp
    have hroomSelf := claimApply_rooms_self s c rid tid hposS
    have hallNewForm : allWinningClaimed (s.roomTicketsByRound rid (s.rooms rid).roundNumber)
        (s.rooms rid).winningNumber
        (upd3 s.ticketClaimed rid (s.rooms rid).roundNumber tid true rid
          (s.rooms rid).roundNumber) =
        allWinningClaimed l W ((claimApply s c rid tid).ticketClaimed rid r) := by
      rw [hround_s, inv.tickets, inv.wnum, ← hround_s, ← claimApply_ticketClaimed, hround_s]
    rw [hallNewForm] at hroomSelf
    constructor
    · rw [claimApply_rooms_roundNumber]
      exact inv.round
    · rw [claimApply_rooms_winningNumber]
      exact inv.wnum
    · rw [(claimApply_frame s c rid tid).1]
      exact inv.tickets
    · intro tid2 hc2
      simp only [hclNew] at hc2
      by_cases he : tid2 = tid
      · subst he
        exact ⟨hlt, by rw [hgetD]; exact hwin⟩
      · rw [if_neg he] at hc2
        exact inv.onlyWinners tid2 hc2
    · rw [hroomSelf]
      by_cases hall : allWinningClaimed l W ((claimApply s c rid tid).ticketClaimed rid r) = true
      · rw [if_pos hall, if_pos hall]
      · rw [if_neg hall, if_neg hall]
        exact hpoolS
    · rw [hroomSelf]
      have hfc : (if allWinningClaimed l W ((claimApply s c rid tid).ticketClaimed rid r) = true
          then { s.rooms rid with
                 feesCollected := true
                 prizePool := 0
                 state := RoomState.CLOSED }
          else { s.rooms rid with feesCollected := true }).feesCollected = true := by
        split_ifs <;> rfl
      rw [hfc, hmNew]
      exact iff_of_true rfl (Nat.succ_pos _)
    · rw [claimApply_collectedFees s c rid tid hposS, hmNew, hpoolS]
      by_cases hm : 0 < claimedWinners l W (s.ticketClaimed rid r)
      · have hfcTrue : (s.rooms rid).feesCollected = true := inv.feesC.mpr hm
        rw [if_pos hfcTrue, inv.fees, if_pos hm, if_pos (Nat.succ_pos _)]
      · have hfcFalse : ¬ (s.rooms rid).feesCollected = true := fun h => hm (inv.feesC.mp h)
        rw [if_neg hfcFalse, inv.fees, if_neg hm, if_pos (Nat.succ_pos _)]
        omega
    · obtain ⟨ext, hext, hq, hlen⟩ := inv.paid
      refine ⟨ext ++ [(c, (P - P * PLATFORM_FEE / 100) /
        l.countP (fun t => t.number == W))], ?_, ?_, ?_⟩
      · rw [claimApply_transfersOut s c rid tid hposS, hext, hpoolS, hround_s, inv.tickets,
          inv.wnum, List.append_assoc]
      · intro e he
        rcases List.mem_append.mp he with hm | hm
        · exact hq e hm
        · rw [List.mem_singleton] at hm
          subst hm
          rfl
      · rw [List.length_append, List.length_singleton, hlen, hmNew]

end LotteryMiniPay

namespace LotteryMiniPay

theorem consInv_steps (keccak : Nat → Nat → Nat → Nat → Nat → Nat)
    {r W : Nat} {l : List Ticket} {P cf0 : Nat} {t0 : List (Nat × Nat)} {rid : Nat}
    {s : LotteryState} (inv : ConsInv r W l P cf0 t0 rid s)
    (calls : List (Nat × Nat)) :
    ConsInv r W l P cf0 t0 rid
      (steps keccak s (calls.map (fun p => Op.claimPrize p.1 rid p.2))) := by
  induction calls generalizing s with
  | nil => exact inv
  | cons p ps ih => exact ih (consInv_step inv p.1 p.2)

end LotteryMiniPay

namespace LotteryMiniPay

/-- C2: Conservation of a round's funds.  Freeze a room's round with
tickets `l`, winning number `W`, pool `P`, `k ≥ 1` winning tickets, fee not
yet collected and no ticket claimed.  Then across ANY sequence of
`claimPrize` calls on that room (any callers, any ticket ids, any order),
every transfer made pays exactly `q = (P - fee)/k` with
`fee = floor(P * 10 / 100)`, the total paid equals
`(number of claimed winning tickets) * q ≤ k * q`, the aggregate fee
account has increased by exactly `fee` as soon as at least one claim
succeeded (and only once), and when every winning ticket has been claimed
the total paid is exactly `k * q` and the fee account exactly
`collectedFees + fee`. -/
theorem C2_round_conservation
    (keccak : Nat → Nat → Nat → Nat → Nat → Nat) (s0 : LotteryState) (rid : Nat)
    (r W P k fee q : Nat) (l : List Ticket)
    (hr : r = (s0.rooms rid).roundNumber)
    (hW : W = (s0.rooms rid).winningNumber)
    (hl : l = s0.roomTicketsByRound rid r)
    (hP : P = (s0.rooms rid).prizePool)
    (hk : k = l.countP (fun t => t.number == W))
    (hfee : fee = P * PLATFORM_FEE / 100)
    (hq : q = (P - fee) / k)
    (hkpos : 0 < k)
    (hfc : (s0.rooms rid).feesCollected = false)
    (hnc : ∀ tid, s0.ticketClaimed rid r tid = false)
    (calls : List (Nat × Nat)) :
    ∃ ext,
      (steps keccak s0 (calls.map fun p => Op.claimPrize p.1 rid p.2)).transfersOut =
        s0.transfersOut ++ ext ∧
      (∀ e ∈ ext, e.2 = q) ∧
      (ext.map Prod.snd).sum = claimedWinners l W
        ((steps keccak s0 (calls.map fun p => Op.claimPrize p.1 rid p.2)).ticketClaimed rid r) * q ∧
      claimedWinners l W
        ((steps keccak s0 (calls.map fun p => Op.claimPrize p.1 rid p.2)).ticketClaimed rid r) ≤ k ∧
      (steps keccak s0 (calls.map fun p => Op.claimPrize p.1 rid p.2)).collectedFees =
        s0.collectedFees + (if 0 < claimedWinners l W
          ((steps keccak s0 (calls.map fun p => Op.claimPrize p.1 rid p.2)).ticketClaimed rid r)
          then fee else 0) ∧
      (allWinningClaimed l W
          ((steps keccak s0 (calls.map fun p => Op.claimPrize p.1 rid p.2)).ticketClaimed rid r)
          = true →
        (ext.map Prod.snd).sum = k * q ∧
        (steps keccak s0 (calls.map fun p => Op.claimPrize p.1 rid p.2)).collectedFees =
          s0.collectedFees + fee) := by
  subst hq
  subst hfee
  subst hk
  subst hP
  subst hl
  subst hW
  subst hr
  have hm0 : claimedWinners (s0.roomTicketsByRound rid (s0.rooms rid).roundNumber)
      (s0.rooms rid).winningNumber
      (s0.ticketClaimed rid (s0.rooms rid).roundNumber) = 0 := by
    unfold claimedWinners
    rw [List.countP_eq_zero]
    intro i _
    rw [hnc i, Bool.and_false]
    simp
  have hallInit : allWinningClaimed (s0.roomTicketsByRound rid (s0.rooms rid).roundNumber)
      (s0.rooms rid).winningNumber
      (s0.ticketClaimed rid (s0.rooms rid).roundNumber) = false := by
    obtain ⟨t, htmem, hpt⟩ := List.countP_pos_iff.mp hkpos
    obtain ⟨i, hi, hgett⟩ := List.getElem_of_mem htmem
    have hgd : (s0.roomTicketsByRound rid (s0.rooms rid).roundNumber).getD i default = t := by
      have h2 := List.getElem?_eq_getElem hi
      rw [hgett] at h2
      simp [List.getD, h2]
    refine allWinningClaimed_false_of _ _ _ i hi ?_ (hnc i)
    rw [hgd]
    exact beq_iff_eq.mp hpt
  have inv0 : ConsInv (s0.rooms rid).roundNumber (s0.rooms rid).winningNumber
      (s0.roomTicketsByRound rid (s0.rooms rid).roundNumber)
      (s0.rooms rid).prizePool s0.collectedFees s0.transfersOut rid s0 := by
    refine ⟨rfl, rfl, rfl, ?_, ?_, ?_, ?_, ?_⟩
    · intro tid h
      rw [hnc tid] at h
      exact absurd h (by simp)
    · rw [hallInit]
      simp
    · rw [hm0]
      exact iff_of_false (by simp [hfc]) (by simp)
    · rw [hm0]
      simp
    · exact ⟨[], by simp, by simp, by simp [hm0]⟩
  have invF := consInv_steps keccak inv0 calls
  obtain ⟨ext, hext, hqv, hlen⟩ := invF.paid
  have hsum : (ext.map Prod.snd).sum = ext.length *
      (((s0.rooms rid).prizePool - (s0.rooms rid).prizePool * PLATFORM_FEE / 100) /
        (s0.roomTicketsByRound rid (s0.rooms rid).roundNumber).countP
          (fun t => t.number == (s0.rooms rid).winningNumber)) := by
    have h1 : ext.map Prod.snd = List.replicate (ext.map Prod.snd).length
        (((s0.rooms rid).prizePool - (s0.rooms rid).prizePool * PLATFORM_FEE / 100) /
          (s0.roomTicketsByRound rid (s0.rooms rid).roundNumber).countP
            (fun t => t.number == (s0.rooms rid).winningNumber)) := by
      apply List.eq_replicate_of_mem
      intro b hb
      rcases List.mem_map.mp hb with ⟨e, he, rfl⟩
      exact hqv e he
    rw [h1, List.sum_replicate, smul_eq_mul, List.length_map]
  refine ⟨ext, hext, hqv, ?_, claimedWinners_le _ _ _, invF.fees, ?_⟩
  · rw [hsum, hlen]
  · intro hall
    have hmk := claimedWinners_eq_of_all _ _ _ hall
    constructor
    · rw [hsum, hlen, hmk]
    · rw [invF.fees, hmk, if_pos hkpos]

end LotteryMiniPay

namespace LotteryMiniPay

/-- C1: Claim is exactly-once per ticket.  If `claimPrize` succeeds for
`(rid, round, tid)`, then the claimed flag was false before the call and is
set in the result (before the token transfer, which is the last effect),
the claimant is paid exactly the computed payout exactly once, and after
ANY further sequence of contract calls that leaves the room in the same
round, every `claimPrize` on the same `(room, round, ticket)` fails and
persists no state change; when the ticket's owner retries (contract not
paused) the error is precisely `InvalidTicket`. -/
theorem C1_claim_exactly_once
    (keccak : Nat → Nat → Nat → Nat → Nat → Nat) (s s1 : LotteryState)
    (c rid tid : Nat) (hwf : WF s)
    (hok : claimPrize s c rid tid = .ok s1)
    (L : List Op)
    (hround : ((steps keccak s1 L).rooms rid).roundNumber = (s.rooms rid).roundNumber) :
    s.ticketClaimed rid (s.rooms rid).roundNumber tid = false ∧
    s1.ticketClaimed rid (s.rooms rid).roundNumber tid = true ∧
    s1.transfersOut = s.transfersOut ++
      [(c, ((s.rooms rid).prizePool - (s.rooms rid).prizePool * PLATFORM_FEE / 100) /
        (s.roomTicketsByRound rid (s.rooms rid).roundNumber).countP
          (fun t => t.number == (s.rooms rid).winningNumber))] ∧
    (∀ c2, ∃ e, claimPrize (steps keccak s1 L) c2 rid tid = .error e) ∧
    (∀ c2, step keccak (steps keccak s1 L) (Op.claimPrize c2 rid tid) = steps keccak s1 L) ∧
    ((steps keccak s1 L).paused = false →
      claimPrize (steps keccak s1 L) c rid tid = .error .invalidTicket) := by
  obtain ⟨hp, hrid, ticket, heq, hrd, hpl, hnum, hclm, hs1⟩ := claimPrize_ok hok
  subst hs1
  have hpos : 0 < (s.roomTicketsByRound rid (s.rooms rid).roundNumber).countP
      (fun t => t.number == (s.rooms rid).winningNumber) := by
    refine List.countP_pos_iff.mpr ⟨ticket, List.getElem?_mem heq, ?_⟩
    rw [beq_iff_eq]
    exact hnum
  have htidlt : tid < (s.roomTicketsByRound rid (s.rooms rid).roundNumber).length :=
    (List.getElem?_eq_some.mp heq).1
  have hcl1 : (claimApply s c rid tid).ticketClaimed rid (s.rooms rid).roundNumber tid
      = true := by
    rw [claimApply_ticketClaimed, upd3_self]
  have hr1 : ((claimApply s c rid tid).rooms rid).roundNumber =
      (s.rooms rid).roundNumber := claimApply_rooms_roundNumber s c rid tid rid
  have hrid1 : rid < (claimApply s c rid tid).roomCount := by
    rw [(claimApply_frame s c rid tid).2.1]
    exact hrid
  have hwf1 : WF (claimApply s c rid tid) := wf_claimPrize hwf hok
  have hround1 : ((steps keccak (claimApply s c rid tid) L).rooms rid).roundNumber =
      ((claimApply s c rid tid).rooms rid).roundNumber := by
    rw [hr1]
    exact hround
  have hframe := steps_frame (claimApply s c rid tid) L rid hrid1 hwf1 hround1
  rw [hr1] at hframe
  have hlist1 : (claimApply s c rid tid).roomTicketsByRound rid (s.rooms rid).roundNumber =
      s.roomTicketsByRound rid (s.rooms rid).roundNumber :=
    congrFun (congrFun (claimApply_frame s c rid tid).1 rid) (s.rooms rid).roundNumber
  rw [hlist1] at hframe
  have hcl2 : (steps keccak (claimApply s c rid tid) L).ticketClaimed rid
      (s.rooms rid).roundNumber tid = true := hframe.2.1 tid hcl1
  have hcore := hframe.1.2 tid htidlt
  rw [heq] at hcore
  obtain ⟨ticket2, heq2, hcore2⟩ :
      ∃ t2, ((steps keccak (claimApply s c rid tid) L).roomTicketsByRound rid
        (s.rooms rid).roundNumber)[tid]? = some t2 ∧ Ticket.core t2 = Ticket.core ticket := by
    cases hl2 : ((steps keccak (claimApply s c rid tid) L).roomTicketsByRound rid
        (s.rooms rid).roundNumber)[tid]? with
    | none =>
      rw [hl2] at hcore
      exact absurd hcore (by simp)
    | some t2 =>
      rw [hl2] at hcore
      refine ⟨t2, rfl, ?_⟩
      simpa using hcore
  have hfields : ticket2.player = ticket.player ∧ ticket2.roundNumber = ticket.roundNumber := by
    simp only [Ticket.core, Prod.mk.injEq] at hcore2
    exact ⟨hcore2.2.2.1, hcore2.2.2.2.2⟩
  have heq2' : ((steps keccak (claimApply s c rid tid) L).roomTicketsByRound rid
      ((steps keccak (claimApply s c rid tid) L).rooms rid).roundNumber)[tid]? =
      some ticket2 := by
    rw [hround]
    exact heq2
  have hcl2' : (steps keccak (claimApply s c rid tid) L).ticketClaimed rid
      ((steps keccak (claimApply s c rid tid) L).rooms rid).roundNumber tid = true := by
    rw [hround]
    exact hcl2
  refine ⟨hclm, hcl1, claimApply_transfersOut s c rid tid hpos, ?_, ?_, ?_⟩
  · intro c2
    cases hres : claimPrize (steps keccak (claimApply s c rid tid) L) c2 rid tid with
    | error e => exact ⟨e, rfl⟩
    | ok s3 =>
      obtain ⟨_, _, t3, _, _, _, _, hcl3, _⟩ := claimPrize_ok hres
      rw [hround] at hcl3
      rw [hcl2] at hcl3
      exact absurd hcl3 (by simp)
  · intro c2
    cases hres : claimPrize (steps keccak (claimApply s c rid tid) L) c2 rid tid with
    | error e =>
      have hrune : run keccak (steps keccak (claimApply s c rid tid) L)
          (Op.claimPrize c2 rid tid) = .error e := hres
      exact step_of_error hrune
    | ok s3 =>
      obtain ⟨_, _, t3, _, _, _, _, hcl3, _⟩ := claimPrize_ok hres
      rw [hround] at hcl3
      rw [hcl2] at hcl3
      exact absurd hcl3 (by simp)
  · intro hp2
    refine claimPrize_claimed_error hp2 hframe.2.2.2 heq2' ?_ ?_ hcl2'
    · rw [hfields.2, hrd, hround]
    · rw [hfields.1, hpl]

end LotteryMiniPay

namespace LotteryMiniPay

/-- On a room already revealed, `revealWinningNumber` by the owner (while
not paused) fails with `AlreadyRevealed` before the verifier ever runs, for
every submitted secret and number. -/
theorem reveal_already_error {keccak : Nat → Nat → Nat → Nat → Nat → Nat}
    {s : LotteryState} {c now rid key w : Nat} (ho : c = s.owner)
    (hp : s.paused = false) (hrid : rid < s.roomCount)
    (hrev : (s.rooms rid).revealed = true) :
    revealWinningNumber keccak s c now rid key w = .error .alreadyRevealed := by
  unfold revealWinningNumber
  rw [if_neg (not_not_intro ho), if_neg (by simp [hp]), if_neg (not_not_intro hrid)]
  dsimp only
  rw [if_pos hrev]

/-- C4: Reveal is exactly-once per room and round.  After a successful
`revealWinningNumber`, the room's `revealed` flag is set; after ANY further
sequence of contract calls that leaves the room in the same round, every
further `revealWinningNumber` on that room fails (regardless of the
submitted secret and number) and persists no state change — in particular
the room's winning number, state and tickets stay as they are — and when
the operator retries on the unpaused contract the error is precisely
`AlreadyRevealed`. -/
theorem C4_reveal_exactly_once
    (keccak : Nat → Nat → Nat → Nat → Nat → Nat) (s s1 : LotteryState)
    (c now rid key w : Nat) (hwf : WF s)
    (hok : revealWinningNumber keccak s c now rid key w = .ok s1)
    (L : List Op)
    (hround : ((steps keccak s1 L).rooms rid).roundNumber = (s.rooms rid).roundNumber) :
    (s1.rooms rid).revealed = true ∧
    (∀ c2 now2 key2 w2, ∃ e,
      revealWinningNumber keccak (steps keccak s1 L) c2 now2 rid key2 w2 = .error e) ∧
    (∀ c2 now2 key2 w2,
      step keccak (steps keccak s1 L) (Op.revealWinningNumber c2 now2 rid key2 w2) =
        steps keccak s1 L) ∧
    (∀ now2 key2 w2, (steps keccak s1 L).paused = false →
      revealWinningNumber keccak (steps keccak s1 L) (steps keccak s1 L).owner
        now2 rid key2 w2 = .error .alreadyRevealed) := by
  obtain ⟨ho, hp, hrid, hrev0, hv, hRooms, hT, hC, hCF, hTO, hRC, _⟩ :=
    revealWinningNumber_ok hok
  have hrev1 : (s1.rooms rid).revealed = true := by
    rw [hRooms, upd_self]
  have hr1 : (s1.rooms rid).roundNumber = (s.rooms rid).roundNumber := by
    rw [hRooms, upd_self]
  have hrid1 : rid < s1.roomCount := by
    rw [hRC]
    exact hrid
  have hwf1 : WF s1 := wf_revealWinningNumber hwf hok
  have hround1 : ((steps keccak s1 L).rooms rid).roundNumber =
      (s1.rooms rid).roundNumber := by
    rw [hr1]
    exact hround
  have hframe := steps_frame s1 L rid hrid1 hwf1 hround1
  have hrev2 : ((steps keccak s1 L).rooms rid).revealed = true := hframe.2.2.1 hrev1
  refine ⟨hrev1, ?_, ?_, ?_⟩
  · intro c2 now2 key2 w2
    cases hres : revealWinningNumber keccak (steps keccak s1 L) c2 now2 rid key2 w2 with
    | error e => exact ⟨e, rfl⟩
    | ok s3 =>
      obtain ⟨_, _, _, hrev3, _⟩ := revealWinningNumber_ok hres
      rw [hrev2] at hrev3
      exact absurd hrev3 (by simp)
  · intro c2 now2 key2 w2
    cases hres : revealWinningNumber keccak (steps keccak s1 L) c2 now2 rid key2 w2 with
    | error e =>
      have hrune : run keccak (steps keccak s1 L)
          (Op.revealWinningNumber c2 now2 rid key2 w2) = .error e := hres
      exact step_of_error hrune
    | ok s3 =>
      obtain ⟨_, _, _, hrev3, _⟩ := revealWinningNumber_ok hres
      rw [hrev2] at hrev3
      exact absurd hrev3 (by simp)
  · intro now2 key2 w2 hp2
    exact reveal_already_error rfl hp2 hframe.2.2.2 hrev2

end LotteryMiniPay

namespace LotteryMiniPay

/-- C5: Commitment round-trip.  Model `keccak256` as a collision-free
(injective) digest over its five packed fields.  If a room stores the
digest of `(n, secret, roomId, operator, round)` with `n ≤ 99`, then a
reveal verifies iff the submitted number and secret and the contextual
room identity, operator identity and current round number are EXACTLY the
committed five — changing any single field makes verification fail — and a
failed verification makes `revealWinningNumber` revert with
`InvalidVerification` (so no state change persists). -/
theorem C5_commitment_roundtrip
    (keccak : Nat → Nat → Nat → Nat → Nat → Nat)
    (hinj : Function.Injective fun p : Nat × Nat × Nat × Nat × Nat =>
      keccak p.1 p.2.1 p.2.2.1 p.2.2.2.1 p.2.2.2.2)
    (s : LotteryState) (rid : Nat) (n sec rid0 o0 r0 : Nat) (hn : n ≤ 99)
    (hstored : (s.rooms rid).encryptedWinningNumber = keccak n sec rid0 o0 r0) :
    (∀ key w, verifyWinningNumber keccak s rid key w = true ↔
      (w = n ∧ key = sec ∧ rid = rid0 ∧ s.owner = o0 ∧ (s.rooms rid).roundNumber = r0)) ∧
    (∀ c now key w, c = s.owner → s.paused = false → rid < s.roomCount →
      (s.rooms rid).revealed = false →
      verifyWinningNumber keccak s rid key w = false →
      revealWinningNumber keccak s c now rid key w = .error .invalidVerification) := by
  constructor
  · intro key w
    unfold verifyWinningNumber
    dsimp only
    rw [hstored]
    simp only [Bool.and_eq_true, decide_eq_true_eq]
    constructor
    · rintro ⟨hhash, hw⟩
      have htup : (w, key, rid, s.owner, (s.rooms rid).roundNumber) =
          (n, sec, rid0, o0, r0) := hinj hhash
      simp only [Prod.mk.injEq] at htup
      exact ⟨htup.1, htup.2.1, htup.2.2.1, htup.2.2.2.1, htup.2.2.2.2⟩
    · rintro ⟨rfl, rfl, h3, h4, h5⟩
      rw [h5, h3, h4]
      exact ⟨rfl, hn⟩
  · intro c now key w ho hp hrid hrev hv
    unfold revealWinningNumber
    rw [if_neg (not_not_intro ho), if_neg (by simp [hp]), if_neg (not_not_intro hrid)]
    dsimp only
    rw [if_neg (by simp [hrev]), if_pos (by simp [hv])]

end LotteryMiniPay

namespace LotteryMiniPay

/-- C6: No-winner carry-over.  For a room whose round closed with zero
winning tickets, a successful `resetRoom` leaves the prize pool exactly as
it was (also entry fee and carry-over amount), while changing draw time,
commitment, revealed flag, winning number, round number (incremented),
`feesCollected`, reveal time, and state (back to OPEN). -/
theorem C6_reset_carries_pool
    (s s1 : LotteryState) (c rid drawTime enc : Nat)
    (hclosed : (s.rooms rid).state = RoomState.CLOSED)
    (hnowin : (s.roomTicketsByRound rid (s.rooms rid).roundNumber).countP
      (fun t => t.number == (s.rooms rid).winningNumber) = 0)
    (hok : resetRoom s c rid drawTime enc = .ok s1) :
    (s1.rooms rid).prizePool = (s.rooms rid).prizePool ∧
    (s1.rooms rid).drawTime = drawTime ∧
    (s1.rooms rid).encryptedWinningNumber = enc ∧
    (s1.rooms rid).revealed = false ∧
    (s1.rooms rid).winningNumber = 0 ∧
    (s1.rooms rid).roundNumber = (s.rooms rid).roundNumber + 1 ∧
    (s1.rooms rid).feesCollected = false ∧
    (s1.rooms rid).revealTime = 0 ∧
    (s1.rooms rid).state = RoomState.OPEN ∧
    (s1.rooms rid).carryOverAmount = (s.rooms rid).carryOverAmount ∧
    (s1.rooms rid).entryFee = (s.rooms rid).entryFee := by
  obtain ⟨_, _, _, _, hself, _⟩ := resetRoom_ok hok
  rw [hself]
  exact ⟨rfl, rfl, rfl, rfl, rfl, rfl, rfl, rfl, rfl, rfl, rfl⟩

/-- C7: Fail-closed atomicity.  In the embedding `step` encodes the EVM's
transaction semantics: a call that ends in any error persists exactly the
pre-call state — no partial mutation survives.  In particular a
`buyTicket` rejected because the draw time has passed (whose body writes
`PENDING_REVEAL` before reverting) errors with `BuyTicketAfterDrawTime`
and leaves the stored state unchanged. -/
theorem C7_fail_closed (keccak : Nat → Nat → Nat → Nat → Nat → Nat) :
    (∀ (s : LotteryState) (op : Op) (e : Err),
      run keccak s op = .error e → step keccak s op = s) ∧
    (∀ (s : LotteryState) (c now rid n : Nat), s.paused = false → rid < s.roomCount →
      (s.rooms rid).drawTime ≤ now →
      run keccak s (Op.buyTicket c now rid n) = .error .buyTicketAfterDrawTime ∧
      step keccak s (Op.buyTicket c now rid n) = s) := by
  constructor
  · exact fun s op e h => step_of_error h
  · intro s c now rid n hp hrid hdt
    have herr : buyTicket s c now rid n = .error .buyTicketAfterDrawTime := by
      unfold buyTicket
      rw [if_neg (by simp [hp]), if_neg (not_not_intro hrid)]
      dsimp only
      rw [if_pos hdt]
    exact ⟨herr, step_of_error herr⟩

/-- C9: `withdrawFees` semantics, owner-called: a positive amount within
the tracked aggregate succeeds, transfers exactly that amount to the
owner, and leaves the aggregate decremented; an amount above the aggregate
fails with `InvalidAmount`; amount `0` withdraws the whole aggregate and
leaves it at `0`. -/
theorem C9_withdrawFees_semantics (s : LotteryState) (c amount : Nat)
    (hc : c = s.owner) :
    (0 < amount → amount ≤ s.collectedFees →
      withdrawFees s c amount = .ok { s with
        collectedFees := s.collectedFees - amount
        transfersOut := s.transfersOut ++ [(s.owner, amount)] }) ∧
    (s.collectedFees < amount → withdrawFees s c amount = .error .invalidAmount) ∧
    (amount = 0 →
      withdrawFees s c amount = .ok { s with
        collectedFees := 0
        transfersOut := s.transfersOut ++ [(s.owner, s.collectedFees)] }) := by
  refine ⟨?_, ?_, ?_⟩
  · intro hpos hle
    unfold withdrawFees
    rw [if_neg (not_not_intro hc)]
    dsimp only
    rw [if_neg (Nat.pos_iff_ne_zero.mp hpos), if_neg (Nat.not_lt.mpr hle)]
  · intro hlt
    unfold withdrawFees
    rw [if_neg (not_not_intro hc)]
    dsimp only
    have hne : ¬ amount = 0 := by omega
    rw [if_neg hne, if_pos hlt]
  · intro h0
    subst h0
    unfold withdrawFees
    rw [if_neg (not_not_intro hc)]
    dsimp only
    rw [if_pos rfl, if_neg (lt_irrefl s.collectedFees), Nat.sub_self]

/-- C10: Implicit division safety in `claimPrize`.  Whenever all guards
pass (the ticket exists in the current round, belongs to the caller, hits
the winning number, and is unclaimed), the recount of the round's winning
tickets is at least one — the caller's own — so the payout division is by
a positive count, the paid branch executes (a transfer of exactly
`(pool - fee) / winningTicketCount` is appended), and the zero-winner
branch is unreachable. -/
theorem C10_division_safety (s : LotteryState) (c rid tid : Nat) (ticket : Ticket)
    (hp : s.paused = false) (hrid : rid < s.roomCount)
    (heq : (s.roomTicketsByRound rid (s.rooms rid).roundNumber)[tid]? = some ticket)
    (hrd : ticket.roundNumber = (s.rooms rid).roundNumber)
    (hpl : ticket.player = c)
    (hnum : ticket.number = (s.rooms rid).winningNumber)
    (hclm : s.ticketClaimed rid (s.rooms rid).roundNumber tid = false) :
    0 < (s.roomTicketsByRound rid (s.rooms rid).roundNumber).countP
      (fun t => t.number == (s.rooms rid).winningNumber) ∧
    claimPrize s c rid tid = .ok (claimApply s c rid tid) ∧
    (claimApply s c rid tid).transfersOut = s.transfersOut ++
      [(c, ((s.rooms rid).prizePool - (s.rooms rid).prizePool * PLATFORM_FEE / 100) /
        (s.roomTicketsByRound rid (s.rooms rid).roundNumber).countP
          (fun t => t.number == (s.rooms rid).winningNumber))] := by
  have hpos : 0 < (s.roomTicketsByRound rid (s.rooms rid).roundNumber).countP
      (fun t => t.number == (s.rooms rid).winningNumber) := by
    refine List.countP_pos_iff.mpr ⟨ticket, List.getElem?_mem heq, ?_⟩
    rw [beq_iff_eq]
    exact hnum
  exact ⟨hpos, claimPrize_guards_ok hp hrid heq hrd hpl hnum hclm,
    claimApply_transfersOut s c rid tid hpos⟩

/-- C3 (amended): `buyTicket` never inspects the stored room state.  It
succeeds exactly when the contract is unpaused, the room id is valid, the
draw time has not passed, the number is in range and the allowance covers
the entry fee — the stored `RoomState` plays no role — and whenever the
draw time has passed it fails with `BuyTicketAfterDrawTime` (not an
`InvalidState`-class error), again regardless of the stored state. -/
theorem C3_buyTicket_ignores_state (s : LotteryState) (c now rid n : Nat) :
    ((∃ s1, buyTicket s c now rid n = .ok s1) ↔
      (s.paused = false ∧ rid < s.roomCount ∧ now < (s.rooms rid).drawTime ∧
       n ≤ 99 ∧ (s.rooms rid).entryFee ≤ s.allowance c)) ∧
    (s.paused = false → rid < s.roomCount → (s.rooms rid).drawTime ≤ now →
      buyTicket s c now rid n = .error .buyTicketAfterDrawTime) := by
  constructor
  · constructor
    · rintro ⟨s1, hok⟩
      obtain ⟨hp, hrid, hdt, hn, hal, _⟩ := buyTicket_ok hok
      exact ⟨hp, hrid, hdt, hn, hal⟩
    · rintro ⟨hp, hrid, hdt, hn, hal⟩
      apply Exists.intro
      unfold buyTicket
      rw [if_neg (by simp [hp]), if_neg (not_not_intro hrid)]
      dsimp only
      rw [if_neg (Nat.not_le.mpr hdt), if_neg (Nat.not_lt.mpr hn),
        if_neg (Nat.not_lt.mpr hal)]
  · intro hp hrid hdt
    unfold buyTicket
    rw [if_neg (by simp [hp]), if_neg (not_not_intro hrid)]
    dsimp only
    rw [if_pos hdt]

/-- C8 (amended): every ticket ever stored by any call sequence from a
fresh deployment has a chosen number in `[0, 99]`, and a `buyTicket` with
a number above `99` never succeeds; it fails specifically with
`InvalidNumber` whenever the earlier guards (unpaused, valid room, draw
time not passed) let execution reach the range check. -/
theorem C8_number_range (keccak : Nat → Nat → Nat → Nat → Nat → Nat) :
    (∀ (ownerAddr : Nat) (L : List Op) (rid r : Nat),
      ∀ t ∈ (steps keccak (initState ownerAddr) L).roomTicketsByRound rid r,
        t.number ≤ 99) ∧
    (∀ (s s1 : LotteryState) (c now rid n : Nat), 99 < n →
      buyTicket s c now rid n ≠ .ok s1) ∧
    (∀ (s : LotteryState) (c now rid n : Nat), 99 < n → s.paused = false →
      rid < s.roomCount → now < (s.rooms rid).drawTime →
      buyTicket s c now rid n = .error .invalidNumber) := by
  refine ⟨?_, ?_, ?_⟩
  · intro ownerAddr L rid r t ht
    exact (wf_steps (wf_initState ownerAddr) L).numLe rid r t ht
  · intro s s1 c now rid n hn hok
    obtain ⟨_, _, _, hle, _⟩ := buyTicket_ok hok
    omega
  · intro s c now rid n hn hp hrid hdt
    unfold buyTicket
    rw [if_neg (by simp [hp]), if_neg (not_not_intro hrid)]
    dsimp only
    rw [if_neg (Nat.not_le.mpr hdt), if_pos hn]

end LotteryMiniPay

namespace LotteryMiniPay

/-! ### Concrete instances: an injective hash model and sample states -/

/-- Concrete collision-free stand-in for `keccak256` over the five packed
fields, built from the Cantor pairing function. -/
def keccakW : Nat → Nat → Nat → Nat → Nat → Nat :=
  fun n sec rid own rnd => Nat.pair n (Nat.pair sec (Nat.pair rid (Nat.pair own rnd)))

theorem keccakW_injective : Function.Injective fun p : Nat × Nat × Nat × Nat × Nat =>
    keccakW p.1 p.2.1 p.2.2.1 p.2.2.2.1 p.2.2.2.2 := by
  rintro ⟨a1, a2, a3, a4, a5⟩ ⟨b1, b2, b3, b4, b5⟩ h
  simp only [keccakW] at h
  obtain ⟨h1, h2⟩ := Nat.pair_eq_pair.mp h
  obtain ⟨h3, h4⟩ := Nat.pair_eq_pair.mp h2
  obtain ⟨h5, h6⟩ := Nat.pair_eq_pair.mp h4
  obtain ⟨h7, h8⟩ := Nat.pair_eq_pair.mp h6
  subst h1; subst h3; subst h5; subst h7; subst h8
  rfl

/-- The four tickets of the spec's scenario (numbers 15, 27, 42, 89,
winning number 42 already revealed). -/
def ticketsW : List Ticket :=
  [{ id := 0, roomId := 0, player := 1, number := 15, roundNumber := 1, win := false },
   { id := 1, roomId := 0, player := 2, number := 27, roundNumber := 1, win := false },
   { id := 2, roomId := 0, player := 3, number := 42, roundNumber := 1, win := true },
   { id := 3, roomId := 0, player := 4, number := 89, roundNumber := 1, win := false }]

/-- A revealed room in round 1: pool 40, winning number 42. -/
def roomW : Room :=
  { id := 0, name := "w", description := "", entryFee := 10, drawTime := 1000,
    prizePool := 40, encryptedWinningNumber := keccakW 42 777 0 900 1,
    winningNumber := 42, revealed := true, state := RoomState.REVEALED,
    carryOverAmount := 0, roundNumber := 1, feesCollected := false, revealTime := 500 }

/-- Sample contract state: one room (`roomW`), the scenario tickets, no
claims yet, owner `900`. -/
def sW : LotteryState :=
  { rooms := fun i => if i = 0 then roomW else {}
    playerTicketIds := fun _ _ => []
    roomTicketsByRound := fun rid r => if rid = 0 ∧ r = 1 then ticketsW else []
    ticketClaimed := fun _ _ _ => false
    roomCount := 1
    activeRoomIds := [0]
    collectedFees := 0
    owner := 900
    paused := false
    playerStats := fun _ => {}
    allowance := fun _ => 100
    transfersOut := [] }

theorem wf_of_same_fields (s s2 : LotteryState)
    (hT : s.roomTicketsByRound = s2.roomTicketsByRound)
    (hC : s.ticketClaimed = s2.ticketClaimed) (hwf : WF s2) : WF s := by
  refine ⟨?_, ?_, ?_⟩
  · rw [hT]
    exact hwf.numLe
  · rw [hT]
    exact hwf.roundEq
  · intro rid r tid hc
    rw [hT]
    rw [hC] at hc
    exact hwf.claimedLt rid r tid hc

theorem wf_sW : WF sW := by
  refine ⟨?_, ?_, ?_⟩
  · intro rid r t ht
    have ht2 : t ∈ (if rid = 0 ∧ r = 1 then ticketsW else []) := ht
    by_cases h : rid = 0 ∧ r = 1
    · rw [if_pos h] at ht2
      simp only [ticketsW, List.mem_cons, List.not_mem_nil, or_false] at ht2
      rcases ht2 with rfl | rfl | rfl | rfl <;> decide
    · rw [if_neg h] at ht2
      exact absurd ht2 (List.not_mem_nil t)
  · intro rid r t ht
    have ht2 : t ∈ (if rid = 0 ∧ r = 1 then ticketsW else []) := ht
    by_cases h : rid = 0 ∧ r = 1
    · rw [if_pos h] at ht2
      simp only [ticketsW, List.mem_cons, List.not_mem_nil, or_false] at ht2
      rcases ht2 with rfl | rfl | rfl | rfl <;> exact h.2.symm
    · rw [if_neg h] at ht2
      exact absurd ht2 (List.not_mem_nil t)
  · intro rid r tid hc
    exact absurd hc (by simp [sW])

end LotteryMiniPay

namespace LotteryMiniPay

/-- A reachable state: fresh deployment, an approval, a room created with
draw time 1000 and commitment to 42, then revealed at time 500 — before
the draw time, which no guard prevents. -/
def s_c3 : LotteryState :=
  steps keccakW (initState 900)
    [Op.approve 1 100,
     Op.createRoom 900 "r" "d" (10 * 10 ^ 12) 1000 (keccakW 42 777 0 900 1),
     Op.revealWinningNumber 900 500 0 777 42]

/-- C3 counterexample: in the reachable state `s_c3` room 0 is `REVEALED`
(not `OPEN`, `revealed = true`), yet `buyTicket` at time 600 succeeds and
stores a ticket — refuting "buyTicket succeeds only when the room's state
is OPEN" and "a room already revealed never accepts a new ticket
purchase". -/
theorem C3_counterexample :
    (s_c3.rooms 0).state = RoomState.REVEALED ∧
    (s_c3.rooms 0).state ≠ RoomState.OPEN ∧
    (s_c3.rooms 0).revealed = true ∧
    buyTicket s_c3 1 600 0 7 = .ok (step keccakW s_c3 (Op.buyTicket 1 600 0 7)) ∧
    ((step keccakW s_c3 (Op.buyTicket 1 600 0 7)).roomTicketsByRound 0 1).length = 1 :=
  ⟨rfl, by decide, rfl, rfl, rfl⟩

/-- A reachable state: fresh deployment, an approval, a room created with
draw time 1000. -/
def s_c8 : LotteryState :=
  steps keccakW (initState 900)
    [Op.approve 1 100,
     Op.createRoom 900 "r" "d" (10 * 10 ^ 12) 1000 (keccakW 42 777 0 900 1)]

/-- C8 counterexample: with the draw time already passed, `buyTicket` with
the out-of-range number 100 fails with `BuyTicketAfterDrawTime`, not
`InvalidNumber` — refuting "a buyTicket call with number 100 always fails
with the InvalidNumber error". -/
theorem C8_counterexample :
    buyTicket s_c8 1 2000 0 100 = .error .buyTicketAfterDrawTime ∧
    Err.buyTicketAfterDrawTime ≠ Err.invalidNumber :=
  ⟨rfl, by decide⟩

end LotteryMiniPay

namespace LotteryMiniPay

/-- Witness for C1 at `sW`: player 3 claims winning ticket 2; the flag was
unchecked, is set by the success, and the retry errors `InvalidTicket`. -/
theorem C1_witness :
    sW.ticketClaimed 0 (sW.rooms 0).roundNumber 2 = false ∧
    (claimApply sW 3 0 2).ticketClaimed 0 (sW.rooms 0).roundNumber 2 = true ∧
    claimPrize (steps keccakW (claimApply sW 3 0 2) []) 3 0 2 = .error .invalidTicket := by
  have h := C1_claim_exactly_once keccakW sW (claimApply sW 3 0 2) 3 0 2 wf_sW rfl [] rfl
  exact ⟨h.1, h.2.1, h.2.2.2.2.2 rfl⟩

/-- Witness for C2 at `sW` (pool 40, one winner): after the single claim
the fee account grew by exactly 4 and exactly one 36-unit payout went
out. -/
theorem C2_witness :
    (steps keccakW sW
      ([((3 : Nat), (2 : Nat))].map fun p => Op.claimPrize p.1 0 p.2)).collectedFees =
      sW.collectedFees + 4 ∧
    (steps keccakW sW
      ([((3 : Nat), (2 : Nat))].map fun p => Op.claimPrize p.1 0 p.2)).transfersOut =
      sW.transfersOut ++ [(3, 36)] := by
  obtain ⟨ext, hext, hqv, hsum, hle, hfees, hfinal⟩ :=
    C2_round_conservation keccakW sW 0 1 42 40 1 4 36 ticketsW rfl rfl rfl rfl rfl rfl rfl
      (by decide) rfl (fun _ => rfl) [(3, 2)]
  refine ⟨(hfinal ?_).2, rfl⟩
  decide

/-- Unrevealed variant of the sample room, carrying the commitment of
`(42, 777, 0, 900, 1)`. -/
def roomR : Room :=
  { roomW with
    revealed := false
    state := RoomState.OPEN
    winningNumber := 0
    revealTime := 0 }

/-- Sample state before reveal. -/
def sR : LotteryState := { sW with rooms := fun i => if i = 0 then roomR else {} }

theorem wf_sR : WF sR := wf_of_same_fields sR sW rfl rfl wf_sW

/-- State after the successful reveal on `sR`. -/
def sR1 : LotteryState := step keccakW sR (Op.revealWinningNumber 900 500 0 777 42)

/-- Witness for C4 at `sR`: the reveal succeeds, sets `revealed`, and the
owner's second reveal (with different arguments) errors
`AlreadyRevealed`. -/
theorem C4_witness :
    (sR1.rooms 0).revealed = true ∧
    revealWinningNumber keccakW (steps keccakW sR1 []) (steps keccakW sR1 []).owner
      600 0 888 7 = .error .alreadyRevealed := by
  have h := C4_reveal_exactly_once keccakW sR sR1 900 500 0 777 42 wf_sR rfl [] rfl
  exact ⟨h.1, h.2.2.2 600 888 7 rfl⟩

/-- Witness for C5 at `sR`: the exact committed pair verifies; a changed
secret or a changed number fails. -/
theorem C5_witness :
    verifyWinningNumber keccakW sR 0 777 42 = true ∧
    verifyWinningNumber keccakW sR 0 778 42 = false ∧
    verifyWinningNumber keccakW sR 0 777 43 = false := by
  have h := C5_commitment_roundtrip keccakW keccakW_injective sR 0 42 777 0 900 1
    (by decide) rfl
  refine ⟨(h.1 777 42).mpr ⟨rfl, rfl, rfl, rfl, rfl⟩, ?_, ?_⟩
  · cases hv : verifyWinningNumber keccakW sR 0 778 42 with
    | false => rfl
    | true =>
      obtain ⟨-, hkey, -⟩ := (h.1 778 42).mp hv
      exact absurd hkey (by decide)
  · cases hv : verifyWinningNumber keccakW sR 0 777 43 with
    | false => rfl
    | true =>
      obtain ⟨hw, -⟩ := (h.1 777 43).mp hv
      exact absurd hw (by decide)

/-- Closed variant of the sample room whose winning number 7 matches no
ticket. -/
def roomC6 : Room := { roomW with state := RoomState.CLOSED, winningNumber := 7 }

/-- Sample state: a closed round with zero winning tickets. -/
def sC6 : LotteryState := { sW with rooms := fun i => if i = 0 then roomC6 else {} }

/-- Witness for C6 at `sC6`: the reset keeps the pool (40), increments the
round, and reopens the room. -/
theorem C6_witness :
    ((step keccakW sC6 (Op.resetRoom 900 0 2000 555)).rooms 0).prizePool =
      (sC6.rooms 0).prizePool ∧
    ((step keccakW sC6 (Op.resetRoom 900 0 2000 555)).rooms 0).roundNumber =
      (sC6.rooms 0).roundNumber + 1 ∧
    ((step keccakW sC6 (Op.resetRoom 900 0 2000 555)).rooms 0).state = RoomState.OPEN := by
  have h := C6_reset_carries_pool sC6 (step keccakW sC6 (Op.resetRoom 900 0 2000 555))
    900 0 2000 555 rfl (by decide) rfl
  exact ⟨h.1, h.2.2.2.2.2.1, h.2.2.2.2.2.2.2.2.1⟩

/-- Witness for C7 at `sW`: a buy after the draw time errors and the
persisted state is exactly the pre-call state. -/
theorem C7_witness :
    run keccakW sW (Op.buyTicket 5 2000 0 7) = .error .buyTicketAfterDrawTime ∧
    step keccakW sW (Op.buyTicket 5 2000 0 7) = sW :=
  (C7_fail_closed keccakW).2 sW 5 2000 0 7 rfl (by decide) (by decide)

/-- Sample state with a tracked fee aggregate of 10. -/
def sF : LotteryState := { sW with collectedFees := 10 }

/-- Witness for C9 at `sF` (aggregate 10): withdrawing 4 leaves 6 and pays
4 to the owner; 20 fails with `InvalidAmount`; 0 drains all 10. -/
theorem C9_witness :
    withdrawFees sF 900 4 = .ok { sF with
      collectedFees := sF.collectedFees - 4
      transfersOut := sF.transfersOut ++ [(sF.owner, 4)] } ∧
    withdrawFees sF 900 20 = .error .invalidAmount ∧
    withdrawFees sF 900 0 = .ok { sF with
      collectedFees := 0
      transfersOut := sF.transfersOut ++ [(sF.owner, sF.collectedFees)] } := by
  refine ⟨?_, ?_, ?_⟩
  · exact (C9_withdrawFees_semantics sF 900 4 rfl).1 (by decide) (by decide)
  · exact (C9_withdrawFees_semantics sF 900 20 rfl).2.1 (by decide)
  · exact (C9_withdrawFees_semantics sF 900 0 rfl).2.2 rfl

/-- Witness for C10 at `sW`: with the guards satisfied for ticket 2, the
winner recount is positive and the paid branch executes. -/
theorem C10_witness :
    0 < (sW.roomTicketsByRound 0 (sW.rooms 0).roundNumber).countP
      (fun t => t.number == (sW.rooms 0).winningNumber) ∧
    claimPrize sW 3 0 2 = .ok (claimApply sW 3 0 2) := by
  have h := C10_division_safety sW 3 0 2
    { id := 2, roomId := 0, player := 3, number := 42, roundNumber := 1, win := true }
    rfl (by decide) rfl rfl rfl rfl rfl
  exact ⟨h.1, h.2.1⟩

/-- Witness for the amended C3 at `sW`: past the draw time the failure is
`BuyTicketAfterDrawTime`, independent of the stored `REVEALED` state. -/
theorem C3_witness :
    buyTicket sW 1 2000 0 7 = .error .buyTicketAfterDrawTime :=
  (C3_buyTicket_ignores_state sW 1 2000 0 7).2 rfl (by decide) (by decide)

/-- Witness for the amended C8 at `sW`: before the draw time, number 100
fails with `InvalidNumber`. -/
theorem C8_witness :
    buyTicket sW 1 600 0 100 = .error .invalidNumber :=
  (C8_number_range keccakW).2.2 sW 1 600 0 100 (by decide) rfl (by decide) (by decide)

end LotteryMiniPay
